import Mathlib

/-!
Verification of the Arachne crawl/index core against its specification.

The Python sources under src/arachne are shallowly embedded as executable
Lean definitions: strings are Lean strings (sequences of Unicode code
points, matching Python 2 unicode strings), machine integers are Nat/Int,
Python floats in the revisit estimator are real numbers, and operations
that can raise exceptions return Option/Except values.
-/

namespace Arachne

/-! ### Python string primitives

Helpers mirroring the Python 2 string and regex operations used by the
sources.  Python regular expressions are compiled without re.UNICODE, so
the character class d matches only ASCII digits and s only ASCII
whitespace. -/

/-- ASCII whitespace as matched by the regex class s in Python 2. -/
def isPySpace (c : Char) : Bool :=
  c = ' ' ∨ c = '\t' ∨ c = '\n' ∨ c = '\x0d' ∨ c = '\x0b' ∨ c = '\x0c'

/-- ASCII digit, the regex class d in Python 2. -/
def isPyDigit (c : Char) : Bool :=
  '0' ≤ c ∧ c ≤ '9'

/-- ASCII letter, the explicit regex class [a-zA-Z]. -/
def isPyAlpha (c : Char) : Bool :=
  ('a' ≤ c ∧ c ≤ 'z') ∨ ('A' ≤ c ∧ c ≤ 'Z')

/-- ASCII uppercase letter. -/
def isPyUpper (c : Char) : Bool :=
  'A' ≤ c ∧ c ≤ 'Z'

/-- ASCII lowercase letter. -/
def isPyLower (c : Char) : Bool :=
  'a' ≤ c ∧ c ≤ 'z'

/-- Python unicode.lower() restricted to the characters the sources can
produce: ASCII letters and the accented letters in the term translation
table of IndexProcessor. -/
def pyLowerChar (c : Char) : Char :=
  if 'A' ≤ c ∧ c ≤ 'Z' then Char.ofNat (c.toNat + 32)
  else if c = 'Á' then 'á'
  else if c = 'É' then 'é'
  else if c = 'Í' then 'í'
  else if c = 'Ó' then 'ó'
  else if c = 'Ú' then 'ú'
  else if c = 'Ü' then 'ü'
  else if c = 'Ñ' then 'ñ'
  else c

/-- Python unicode.lower() over a whole string. -/
def pyLower (s : String) : String :=
  String.mk (s.toList.map pyLowerChar)

/-- Python unicode.strip(): remove leading and trailing whitespace. -/
def pyStrip (s : String) : String :=
  String.mk (((s.toList.dropWhile (fun c => isPySpace c)).reverse.dropWhile
      (fun c => isPySpace c)).reverse)

/-- Python unicode.lstrip(): remove leading whitespace. -/
def pyLstrip (s : String) : String :=
  String.mk (s.toList.dropWhile (fun c => isPySpace c))

/-- Python unicode.rstrip(u'/'): remove trailing slash characters. -/
def rstripSlash (s : String) : String :=
  String.mk ((s.toList.reverse.dropWhile (fun c => c = '/')).reverse)

/-- Python unicode.lstrip(u'/'): remove leading slash characters. -/
def lstripSlash (s : String) : String :=
  String.mk (s.toList.dropWhile (fun c => c = '/'))

/-- Python s.startswith(p). -/
def pyStartswith (s p : String) : Bool :=
  List.isPrefixOf p.toList s.toList

/-- Python s.split(sep) for a single-character separator: split at every
occurrence, keeping empty fields. -/
def pySplitChar (sep : Char) (s : String) : List String :=
  (s.toList.splitOn sep).map String.mk

/-- Python s.split() (no arguments): split on runs of whitespace and drop
empty fields. -/
def pySplitWs (s : String) : List String :=
  ((s.toList.splitOnP (fun c => isPySpace c)).map String.mk).filter
    (fun t => t ≠ "")

/-! ### IndexProcessor.get_terms (src/arachne/processor.py lines 303-328)

The term extractor.  The regular expressions are embedded as explicit
scanners with the exact semantics of the compiled patterns. -/

namespace IndexProcessor

/-- The punctuation characters translated to spaces by
_WHITE_SPACE_TRANSLATION (the class used in processor.py line 134). -/
def whiteSpaceTranslationChars : List Char :=
  "!\"#$%&'()*+-/:;<=>?@[\\]^_`{|}~".toList

/-- _WHITE_SPACE_TRANSLATION applied with unicode.translate: every
punctuation character becomes a space. -/
def whiteSpaceTranslate (s : List Char) : List Char :=
  s.map (fun c => if c ∈ whiteSpaceTranslationChars then ' ' else c)

/-- _TERM_TRANSLATION (processor.py lines 137-151) applied with
unicode.translate: transliterate accented characters. -/
def termTranslateChar (c : Char) : Char :=
  if c = 'á' then 'a'
  else if c = 'Á' then 'A'
  else if c = 'é' then 'e'
  else if c = 'É' then 'E'
  else if c = 'í' then 'i'
  else if c = 'Í' then 'I'
  else if c = 'ó' then 'o'
  else if c = 'Ó' then 'O'
  else if c = 'ú' then 'u'
  else if c = 'Ú' then 'U'
  else if c = 'ü' then 'u'
  else if c = 'Ü' then 'U'
  else if c = 'ñ' then 'n'
  else c

/-- _WHITE_SPACE_RE.sub(u' ', path): the zero-width pattern
(?<=d)(?=[a-zA-Z])|(?<=[a-zA-Z])(?=d) inserts a space at every boundary
between an ASCII digit and an ASCII letter. -/
def insertBoundarySpaces : List Char → List Char
  | [] => []
  | [c] => [c]
  | c1 :: c2 :: rest =>
    if (isPyDigit c1 ∧ isPyAlpha c2) ∨ (isPyAlpha c1 ∧ isPyDigit c2) then
      c1 :: ' ' :: insertBoundarySpaces (c2 :: rest)
    else
      c1 :: insertBoundarySpaces (c2 :: rest)

/-- Is the character a dot or a comma (the class [.,] of _SPLIT_RE)? -/
def isDotComma (c : Char) : Bool :=
  c = '.' ∨ c = ','

/-- Length of a separator match of _SPLIT_RE at the current position, or
none.  _SPLIT_RE is s+|(?<=D)[.,]+|[.,]+(?=D); `prev` is the character
immediately before the position (for the lookbehind).  The third
alternative backtracks the greedy [.,]+ by one when the lookahead fails at
the end of the run. -/
def splitReMatch (prev : Option Char) (l : List Char) : Option Nat :=
  match l with
  | [] => none
  | c :: rest =>
    if isPySpace c then
      some (1 + (rest.takeWhile (fun d => isPySpace d)).length)
    else if isDotComma c then
      let run := 1 + (rest.takeWhile (fun d => isDotComma d)).length
      match prev with
      | some p =>
        if ¬ isPyDigit p then some run
        else
          match l.drop run with
          | d :: _ => if ¬ isPyDigit d then some run else
              if run ≥ 2 then some (run - 1) else none
          | [] => if run ≥ 2 then some (run - 1) else none
      | none =>
        match l.drop run with
        | d :: _ => if ¬ isPyDigit d then some run else
            if run ≥ 2 then some (run - 1) else none
        | [] => if run ≥ 2 then some (run - 1) else none
    else none

/-- Scanner implementing _SPLIT_RE.split: scan left to right, cutting the
string at every non-overlapping separator match.  `skip` counts separator
characters still to be consumed after a match was cut. -/
def splitReGo (skip : Nat) (cur : List Char) (prev : Option Char) :
    List Char → List (List Char)
  | [] => [cur.reverse]
  | c :: rest =>
    if skip ≠ 0 then splitReGo (skip - 1) cur (some c) rest
    else
      match splitReMatch prev (c :: rest) with
      | some n => cur.reverse :: splitReGo (n - 1) [] (some c) rest
      | none => splitReGo 0 (c :: cur) (some c) rest

/-- _SPLIT_RE.split(path) as used by get_terms. -/
def splitRe (s : String) : List String :=
  (splitReGo 0 [] none s.toList).map String.mk

/-- _CAMEL_CASE_RE.sub(u' ', s): the zero-width pattern
(?<=[a-zA-Z])(?=[A-Z][a-z]) inserts a space before every uppercase letter
that follows a letter and is followed by a lowercase letter. -/
def camelCaseSub : List Char → List Char
  | [] => []
  | [c] => [c]
  | [c1, c2] => [c1, c2]
  | c1 :: c2 :: c3 :: rest =>
    if isPyAlpha c1 ∧ isPyUpper c2 ∧ isPyLower c3 then
      c1 :: ' ' :: camelCaseSub (c2 :: c3 :: rest)
    else
      c1 :: camelCaseSub (c2 :: c3 :: rest)

/-- _MIN_TERM_LENGTH (processor.py line 122). -/
def minTermLength : Nat := 3

/-- _VALID_SHORT_TERMS (processor.py lines 124-125). -/
def validShortTerms : List String :=
  ["0", "1", "2", "3", "4", "5", "6", "7", "8", "9", "c", "C"]

/-- Python set.add on the list model of a set: append if not present. -/
def setAdd (terms : List String) (t : String) : List String :=
  if t ∈ terms then terms else terms ++ [t]

/-- The length-or-whitelist acceptance rule of get_terms. -/
def acceptTerm (t : String) : Bool :=
  t.length ≥ minTermLength ∨ t ∈ validShortTerms

/-- Body of the loop over camel case words in get_terms. -/
def addWords (terms : List String) (words : List String) : List String :=
  words.foldl
    (fun ts w =>
      let w := pyStrip w
      if acceptTerm w then setAdd ts (pyLower w) else ts)
    terms

/-- IndexProcessor.get_terms (processor.py lines 303-328).  The returned
Python set is modelled as a duplicate-free list; only membership in the
result is meaningful. -/
def getTerms (path : String) : List String :=
  let path := String.mk (whiteSpaceTranslate path.toList)
  let path := String.mk (insertBoundarySpaces path.toList)
  (splitRe path).foldl
    (fun terms term =>
      let term := pyStrip term
      if acceptTerm term then
        let terms := setAdd terms (pyLower term)
        let translated := String.mk (term.toList.map termTranslateChar)
        let terms := setAdd terms (pyLower translated)
        let words := pySplitChar ' ' (String.mk (camelCaseSub translated.toList))
        addWords terms words
      else terms)
    []

end IndexProcessor

/-! ### FTPHandler._parse_list (src/arachne/handler.py lines 207-266) -/

/-- A Python exception escaping a function. -/
inductive PyExc where
  | valueError
deriving DecidableEq, Repr

/-- Python s.split(None, maxsplit): skip leading whitespace, read up to
`maxsplit` whitespace-separated words, and keep the remainder (with its
trailing whitespace) as the final field. -/
def pySplitWsMaxGo (m : Nat) (cur : List Char) : List Char → List String
  | [] => if cur.isEmpty then [] else [String.mk cur.reverse]
  | c :: rest =>
    if cur.isEmpty then
      -- Inside a separator run (or leading whitespace).
      if isPySpace c then pySplitWsMaxGo m [] rest
      else if m = 0 then [String.mk (c :: rest)]
      else pySplitWsMaxGo m [c] rest
    else
      if isPySpace c then
        String.mk cur.reverse :: pySplitWsMaxGo (m - 1) [] rest
      else pySplitWsMaxGo m (c :: cur) rest

/-- Python s.split(None, maxsplit): skip leading whitespace, split on runs
of whitespace at most `maxsplit` times, and keep the remainder (with its
trailing whitespace) as the final field. -/
def pySplitWsMax (maxsplit : Nat) (s : String) : List String :=
  pySplitWsMaxGo maxsplit [] s.toList

namespace FTPHandler

/-- FTPHandler._parse_list (handler.py lines 207-266).  Returns `.ok none`
when the line is ignored, `.ok (some (name, is_dir))` when parsed
(`is_dir = none` when unknown, probed later), and `.error` when an
exception escapes the function.  The UNIX branch catches the ValueError it
raises itself; the MSDOS branch catches IndexError and ValueError; the
EPLF branch catches only IndexError, so the ValueError raised by
unpacking `line[1:].split('\t')` into two variables when the line does not
contain exactly one TAB character escapes. -/
def parseList (line : String) : Except PyExc (Option (String × Option Bool)) :=
  let chars := line.toList
  if (chars.head?.map (fun c => "-dbclps".toList.contains c)).getD false then
    -- UNIX-style listing.
    let is_dir : Option Bool :=
      if chars.head? = some '-' then some false
      else if chars.head? = some 'd' then some true
      else none
    let data := pySplitWsMax 8 line
    if data.length = 9 then
      let last := data.getLastD ""
      let name :=
        if chars.head? = some 'l' then (last.splitOn " -> ").headD ""
        else last
      .ok (some (name, is_dir))
    else
      -- raise ValueError('Invalid line format.') is caught: return None.
      .ok none
  else if (chars.head?.map (fun c => "0123456789".toList.contains c)).getD false then
    -- MSDOS format; IndexError and ValueError are caught.
    let line2 := pyLstrip (String.mk (chars.drop 17))
    if pyStartswith line2 "<DIR>" then
      .ok (some (String.mk (line2.toList.drop 15), some true))
    else
      match line2.toList.findIdx? (fun c => c = ' ') with
      | some i => .ok (some (String.mk (line2.toList.drop (i + 1)), some false))
      | none => .ok none   -- line.index(' ') raised ValueError, caught.
  else if chars.head? = some '+' then
    -- Easily Parsed LIST Format; only IndexError is caught.
    match pySplitChar '\t' (String.mk (chars.drop 1)) with
    | [facts, name] =>
      let factsList := pySplitChar ',' facts
      .ok (some (name, some (decide ("/" ∈ factsList))))
    | _ =>
      -- Unpacking a list whose length is not 2 into (facts, name) raises
      -- ValueError, which the except clause (IndexError) does not catch.
      .error .valueError
  else
    .ok none

end FTPHandler

/-! ### URL

Modelled from the spec: the URL class used by processor.py and task.py
(arachne/url.py, referenced by the imports of src/test/testurl.py) is not
present under src/; only src/arachne/util/url.py, an earlier revision
without is_root and dirname, is.  Following spec section 3: a URL carries
an absolute path split into dirname and basename, trailing slashes are
normalized away except for the root (path `/`, dirname `/`, basename `/`),
an explicit is_root flag is carried, and join(url, name) yields a non-root
URL whose dirname equals the parent path.  Scheme, host, and credentials
do not affect any claim and are omitted; sites are identified by site_id
throughout. -/

structure URL where
  path : String
  isRoot : Bool
deriving DecidableEq, Repr

namespace URL

/-- Modelled from the spec: basename of the path; `/` for the root. -/
def basename (u : URL) : String :=
  if u.path = "/" then "/"
  else String.mk ((u.path.toList.reverse.takeWhile (fun c => c ≠ '/')).reverse)

/-- Modelled from the spec: dirname of the path; `/` for the root and for
paths directly under the root. -/
def dirname (u : URL) : String :=
  if u.path = "/" then "/"
  else
    let d := String.mk ((u.path.toList.reverse.dropWhile
        (fun c => c ≠ '/')).reverse.dropLast)
    if d = "" then "/" else d

/-- Modelled from the spec: join a name to the URL, producing a non-root
URL whose dirname is the parent path. -/
def join (u : URL) (name : String) : URL :=
  { path := (if u.path = "/" then "" else u.path) ++ "/" ++ lstripSlash name,
    isRoot := false }

end URL

/-! ### CrawlTask (src/arachne/task.py lines 35-126) -/

/-- CrawlTask: site_id, url and the revisit counters.  revisit_count
starts at -1 (never visited), so the counters are integers. -/
structure CrawlTask where
  site_id : String
  url : URL
  revisit_wait : Int
  revisit_count : Int
  change_count : Int
deriving DecidableEq, Repr

namespace CrawlTask

/-- CrawlTask.__init__ (task.py lines 42-49). -/
def new (site_id : String) (url : URL) : CrawlTask :=
  { site_id := site_id, url := url, revisit_wait := 0, revisit_count := -1,
    change_count := 0 }

/-- CrawlTask.report_visit (task.py lines 71-80). -/
def reportVisit (t : CrawlTask) (changed : Bool) : CrawlTask :=
  { t with
    change_count :=
      if t.revisit_count ≥ 0 ∧ changed then t.change_count + 1
      else t.change_count,
    revisit_count := t.revisit_count + 1 }

/-- CrawlTask.reset_counters (task.py lines 82-86). -/
def resetCounters (t : CrawlTask) : CrawlTask :=
  { t with revisit_count := 0, change_count := 0 }

end CrawlTask

/-! ### TaskQueue (src/arachne/task.py lines 129-425)

The Berkeley DB Btree databases with duplicate records are modelled as
key-sorted association lists in which a new record is inserted after all
records with a smaller or equal key (DB_DUP keeps duplicates in insertion
order).  Keys are the zero-padded decimal epoch seconds produced by
_get_key; fixed-width decimal strings compare lexicographically exactly as
the underlying integers (spec section 4.1), so keys are embedded as
integers.  The mutex serializes every public operation, so each operation
is a pure state transition; `now` is the value of int(time.time()) during
the operation.  A raised exception (KeyError, EmptyQueue, cursor errors)
is modelled by Option/Except results. -/

/-- Insert into a Btree with duplicates: after all keys ≤ the new key. -/
def btreePut {α : Type} (l : List (Int × α)) (k : Int) (v : α) :
    List (Int × α) :=
  match l with
  | [] => [(k, v)]
  | (k2, v2) :: rest =>
    if k < k2 then (k, v) :: (k2, v2) :: rest
    else (k2, v2) :: btreePut rest k v

/-- Lookup in an association list (a Python dict access; `none` is a
KeyError). -/
def alookup {α : Type} (l : List (String × α)) (k : String) : Option α :=
  (l.find? (fun p => p.1 = k)).map (fun p => p.2)

/-- Replace the value stored under a key of an association list. -/
def aset {α : Type} (l : List (String × α)) (k : String) (v : α) :
    List (String × α) :=
  l.map (fun p => if p.1 = k then (p.1, v) else p)

/-- Per-site politeness and revisit configuration (sites_info entries). -/
structure SiteInfo where
  url : URL
  request_wait : Int
  error_dir_wait : Int
  error_site_wait : Int
  default_revisit_wait : Int
  min_revisit_wait : Int
  max_revisit_wait : Int
deriving DecidableEq, Repr

/-- The TaskQueue state: the sites database (key = earliest contact time,
value = site id), one task database per configured site, and the
configuration. -/
structure TaskQueue where
  sitesQ : List (Int × String)
  taskDbs : List (String × List (Int × CrawlTask))
  sitesInfo : List (String × SiteInfo)
deriving Repr

namespace TaskQueue

/-- REVISIT_SAMPLES: self._revisits (task.py line 179). -/
def revisits : Int := 5

/-- TaskQueue._put (task.py lines 385-398): store the pickled task in its
site's database under key now + seconds.  A missing database is a
KeyError. -/
def putTask (now : Int) (q : TaskQueue) (task : CrawlTask) (seconds : Int) :
    Option TaskQueue :=
  match alookup q.taskDbs task.site_id with
  | none => none
  | some db =>
    some { q with
      taskDbs := aset q.taskDbs task.site_id (btreePut db (now + seconds) task) }

/-- TaskQueue.put_new (task.py lines 191-201). -/
def putNew (now : Int) (q : TaskQueue) (task : CrawlTask) : Option TaskQueue :=
  putTask now q task 0

/-- TaskQueue._estimate_revisit_wait (task.py lines 410-425), the
Cho-Garcia-Molina change frequency estimator.  Python floats are embedded
as real numbers and int(round(x)) as the integer nearest to x. -/
noncomputable def estimateRevisitWait (task : CrawlTask) : Int :=
  let changes := task.change_count
  let visits := task.revisit_count
  let wait := task.revisit_wait
  if changes > 0 then
    round ((wait : ℝ) /
      (-(Real.log (((visits : ℝ) - (changes : ℝ) + 0.5) / ((visits : ℝ) + 0.5)))))
  else
    round (((wait * visits : Int) : ℝ))

/-- TaskQueue.put_visited (task.py lines 203-234). -/
noncomputable def putVisited (now : Int) (q : TaskQueue) (task : CrawlTask)
    (changed : Bool) : Option TaskQueue :=
  match alookup q.sitesInfo task.site_id with
  | none => none
  | some si =>
    let task := task.reportVisit changed
    let task :=
      if task.revisit_count = 0 then
        { task with revisit_wait := si.default_revisit_wait }
      else if task.revisit_count ≥ revisits then
        let estimated := estimateRevisitWait task
        let task := { task with
          revisit_wait := min si.max_revisit_wait
            (max si.min_revisit_wait estimated) }
        task.resetCounters
      else task
    putTask now q task task.revisit_wait

/-- The loop of TaskQueue.get (task.py lines 248-295).  Walks the sites
cursor in key order; stale site ids (KeyError on the task databases) are
deleted as they are passed; the entry of the site whose head task is
served is deleted; entries of sites that are not yet due, or whose task
database is empty or has no due head, are kept.  Returns the served task
(none models the EmptyQueue exception) and the new sites database; in
both cases the transaction is committed. -/
def getAux (now : Int) (dbs : List (String × List (Int × CrawlTask))) :
    List (Int × String) → Option CrawlTask × List (Int × String)
  | [] => (none, [])
  | (k, sid) :: rest =>
    if k > now then (none, (k, sid) :: rest)
    else
      match alookup dbs sid with
      | none => getAux now dbs rest
      | some [] =>
        let r := getAux now dbs rest
        (r.1, (k, sid) :: r.2)
      | some ((tk, task) :: _) =>
        if tk > now then
          let r := getAux now dbs rest
          (r.1, (k, sid) :: r.2)
        else (some task, rest)

/-- TaskQueue.get (task.py lines 236-298).  Total (never blocks): returns
either a task executable right now, removing its site's entry from the
sites database, or none, modelling the EmptyQueue exception. -/
def get (now : Int) (q : TaskQueue) : Option CrawlTask × TaskQueue :=
  if q.sitesQ.isEmpty then (none, q)
  else
    let r := getAux now q.taskDbs q.sitesQ
    (r.1, { q with sitesQ := r.2 })

/-- TaskQueue.report_done (task.py lines 300-319): reinsert the site at
now + request_wait and delete the record at the head of the site's task
database.  A missing site or an empty task database raises (none). -/
def reportDone (now : Int) (q : TaskQueue) (task : CrawlTask) :
    Option TaskQueue :=
  match alookup q.sitesInfo task.site_id, alookup q.taskDbs task.site_id with
  | some si, some (_ :: dbrest) =>
    some { q with
      sitesQ := btreePut q.sitesQ (now + si.request_wait) task.site_id,
      taskDbs := aset q.taskDbs task.site_id dbrest }
  | _, _ => none

/-- TaskQueue.report_error_site (task.py lines 321-335): the task is left
in place; the site is reinserted at now + error_site_wait. -/
def reportErrorSite (now : Int) (q : TaskQueue) (task : CrawlTask) :
    Option TaskQueue :=
  match alookup q.sitesInfo task.site_id with
  | none => none
  | some si =>
    some { q with
      sitesQ := btreePut q.sitesQ (now + si.error_site_wait) task.site_id }

/-- TaskQueue.report_error_dir (task.py lines 338-360): reinsert the site
at now + request_wait, delete the head record of the site's task database
and reinsert the task at now + error_dir_wait. -/
def reportErrorDir (now : Int) (q : TaskQueue) (task : CrawlTask) :
    Option TaskQueue :=
  match alookup q.sitesInfo task.site_id, alookup q.taskDbs task.site_id with
  | some si, some (_ :: dbrest) =>
    some { q with
      sitesQ := btreePut q.sitesQ (now + si.request_wait) task.site_id,
      taskDbs := aset q.taskDbs task.site_id
        (btreePut dbrest (now + si.error_dir_wait) task) }
  | _, _ => none

/-- Startup reconciliation of TaskQueue.__init__ (task.py lines 135-180)
for a fresh spool directory (no databases on disk): every configured site
gets an empty task database, an entry in the sites database at key = now,
and a root task at key = now. -/
def initFresh (now : Int) (sitesInfo : List (String × SiteInfo)) : TaskQueue :=
  { sitesQ := sitesInfo.map (fun p => (now, p.1)),
    taskDbs := sitesInfo.map
      (fun p => (p.1, [(now, CrawlTask.new p.1 p.2.url)])),
    sitesInfo := sitesInfo }

end TaskQueue

/-! ### CrawlResult (src/arachne/result.py lines 31-99) -/

/-- The data dictionary stored for a directory entry.  The optional
content text only feeds the C-prefixed content terms, which no claim
mentions; it is omitted. -/
structure EntryData where
  is_dir : Bool
  url : URL
deriving DecidableEq, Repr

/-- CrawlResult: the content of a directory, the result of executing a
CrawlTask.  The entries dictionary is modelled as an association list in
iteration order. -/
structure CrawlResult where
  task : CrawlTask
  found : Bool
  entries : List (String × EntryData)
deriving DecidableEq, Repr

namespace CrawlResult

/-- CrawlResult.__init__ (result.py lines 38-43). -/
def new (task : CrawlTask) (found : Bool) : CrawlResult :=
  { task := task, found := found, entries := [] }

/-- CrawlResult.append (result.py lines 81-85): data['url'] is set to
task.url.join(entry) and the entry stored in the dictionary (an existing
entry of the same name is overwritten). -/
def append (r : CrawlResult) (entry : String) (is_dir : Bool) : CrawlResult :=
  let data : EntryData := { is_dir := is_dir, url := r.task.url.join entry }
  if (alookup r.entries entry).isSome then
    { r with entries := aset r.entries entry data }
  else
    { r with entries := r.entries ++ [(entry, data)] }

end CrawlResult

/-! ### ResultQueue (src/arachne/result.py lines 102-289)

Same Berkeley DB shape as the TaskQueue, but every record uses the same
fixed key, so each database is a FIFO list; the sites database is a FIFO
list of site ids. -/

structure ResultQueue where
  sitesQ : List String
  resultDbs : List (String × List CrawlResult)
deriving Repr

namespace ResultQueue

/-- ResultQueue.put (result.py lines 158-170): append the site id to the
sites database and the result to its site's database.  A site missing
from the configuration is a KeyError. -/
def put (q : ResultQueue) (r : CrawlResult) : Option ResultQueue :=
  match alookup q.resultDbs r.task.site_id with
  | none => none
  | some db =>
    some { q with
      sitesQ := q.sitesQ ++ [r.task.site_id],
      resultDbs := aset q.resultDbs r.task.site_id (db ++ [r]) }

/-- The loop of ResultQueue.get (result.py lines 188-214): walk the sites
cursor, deleting entries of stale sites and of sites with an empty
database; return the head result of the first remaining site without
deleting anything else. -/
def getAux (dbs : List (String × List CrawlResult)) :
    List String → Option CrawlResult × List String
  | [] => (none, [])
  | sid :: rest =>
    match alookup dbs sid with
    | none => getAux dbs rest
    | some [] => getAux dbs rest
    | some (r :: _) => (some r, sid :: rest)

/-- ResultQueue.get (result.py lines 172-219): non-blocking; returns the
result at the head of the queue without removing it, or none (the
EmptyQueue exception). -/
def get (q : ResultQueue) : Option CrawlResult × ResultQueue :=
  if q.sitesQ.isEmpty then (none, q)
  else
    let r := getAux q.resultDbs q.sitesQ
    (r.1, { q with sitesQ := r.2 })

/-- ResultQueue.report_done (result.py lines 221-241): delete the head of
the sites database and the head of the result's site's database.  An
empty sites database or an empty site database makes a cursor first()
call raise (none). -/
def reportDone (q : ResultQueue) (r : CrawlResult) : Option ResultQueue :=
  match q.sitesQ, alookup q.resultDbs r.task.site_id with
  | _ :: srest, some (_ :: dbrest) =>
    some { q with
      sitesQ := srest,
      resultDbs := aset q.resultDbs r.task.site_id dbrest }
  | _, _ => none

/-- Number of crawl results in the queue: ResultQueue.__len__
(result.py lines 148-156). -/
def size (q : ResultQueue) : Nat :=
  (q.resultDbs.map (fun p => p.2.length)).sum

/-- A ResultQueue holding no results for the configured sites (the state
after a fresh startup reconciliation). -/
def empty (siteIds : List String) : ResultQueue :=
  { sitesQ := [], resultDbs := siteIds.map (fun sid => (sid, [])) }

end ResultQueue

/-! ### The Xapian index (src/arachne/processor.py lines 90-372)

A Xapian document is embedded as a record of its value slots plus its
docid; the S site-id term always equals the SITE_ID slot, and the I and R
boolean terms equal the IS_DIR and IS_ROOT slots, so only the slots are
carried.  The B, D, Z and C search terms influence no claim about
IndexProcessor.process and are omitted from the document record (the term
extractor feeding them is embedded separately as getTerms).  A value range
query OP_VALUE_RANGE compares the UTF-8 encodings of the slot strings
lexicographically; UTF-8 byte order coincides with code point order, so
the range tests use lexicographic order on code points. -/

/-- Lexicographic order on strings by code point (the order of Xapian
value ranges on UTF-8 slot values). -/
def strLeChars : List Char → List Char → Bool
  | [], _ => true
  | _ :: _, [] => false
  | a :: as, b :: bs =>
    if a < b then true
    else if a = b then strLeChars as bs
    else false

/-- String comparison for value ranges. -/
def strLe (a b : String) : Bool :=
  strLeChars a.toList b.toList

/-- The largest code point, u'\U0010ffff' (processor.py line 284). -/
def maxChar : Char := Char.ofNat 0x10FFFF

/-- One indexed document: docid plus the value slots of
IndexProcessor._create_document. -/
structure IndexDoc where
  docid : Nat
  site_id : String
  is_dir : Bool
  is_root : Bool
  basename : String
  dirname : String
  path : String
deriving DecidableEq, Repr

/-- The writable database: the next docid to assign and the documents. -/
structure Index where
  nextId : Nat
  docs : List IndexDoc
deriving DecidableEq, Repr

namespace IndexProcessor

/-- IndexProcessor._create_document (processor.py lines 330-372), reduced
to the value slots: the DIRNAME slot is stored with an enforced trailing
slash (line 367), the PATH slot is the full path (line 370). -/
def createDocument (docid : Nat) (site_id : String) (url : URL)
    (is_dir : Bool) : IndexDoc :=
  { docid := docid, site_id := site_id, is_dir := is_dir,
    is_root := url.isRoot, basename := url.basename,
    dirname := rstripSlash url.dirname ++ "/", path := url.path }

/-- add_document: assign the next docid and append. -/
def addDocument (idx : Index) (site_id : String) (url : URL)
    (is_dir : Bool) : Index :=
  { nextId := idx.nextId + 1,
    docs := idx.docs ++ [createDocument idx.nextId site_id url is_dir] }

/-- delete_document(docid). -/
def deleteDocument (idx : Index) (docid : Nat) : Index :=
  { idx with docs := idx.docs.filter (fun d => d.docid ≠ docid) }

/-- IndexProcessor._rmtree (processor.py lines 267-293).  First delete
every document of the site whose PATH slot lies in the degenerate range
[dirpath, dirpath]; then delete every document of the site whose DIRNAME
slot lies in the range [dirpath.rstrip('/') + '/',
dirpath.rstrip('/') + '/' + u'\U0010ffff']. -/
def rmtree (idx : Index) (site_id dirpath : String) : Index :=
  let idx1 : Index := { idx with
    docs := idx.docs.filter
      (fun d => ¬ (d.site_id = site_id ∧
        strLe dirpath d.path ∧ strLe d.path dirpath)) }
  let dirnameStart := rstripSlash dirpath ++ "/"
  let dirnameEnd := dirnameStart ++ String.mk [maxChar]
  { idx1 with
    docs := idx1.docs.filter
      (fun d => ¬ (d.site_id = site_id ∧
        strLe dirnameStart d.dirname ∧ strLe d.dirname dirnameEnd)) }

/-- State threaded through the loop over indexed entries of
IndexProcessor.process (lines 210-237). -/
structure ProcessLoopState where
  idx : Index
  dirChanged : Bool
  indexedEntries : List String
deriving Repr

/-- The loop over the matches of the dirname query (processor.py lines
211-237): entries absent from the result are removed (a whole subtree for
directories), entries present with matching metadata are recorded in
indexed_entries, entries present with changed metadata are deleted to be
re-added. -/
def processIndexedEntry (r : CrawlResult) (site_id dirname : String)
    (st : ProcessLoopState) (d : IndexDoc) : ProcessLoopState :=
  if d.basename = "/" then st
  else
    match alookup r.entries d.basename with
    | none =>
      if d.is_dir then
        { st with
          dirChanged := true,
          idx := rmtree st.idx site_id (dirname ++ d.basename ++ "/") }
      else
        { st with
          dirChanged := true,
          idx := deleteDocument st.idx d.docid }
    | some data =>
      if d.is_dir = data.is_dir then
        { st with indexedEntries := st.indexedEntries ++ [d.basename] }
      else
        { st with
          dirChanged := true,
          idx := deleteDocument st.idx d.docid }

/-- IndexProcessor.process (processor.py lines 174-253) restricted to its
effect on the index and the task queue: the calls put_new(task) for new
subdirectories are collected in order, and the final
put_visited(result.task, dir_changed) call is returned (`none` for a
found=false result).  report_done on the result queue is performed by the
caller's queue and does not touch the index. -/
def process (idx : Index) (r : CrawlResult) :
    Index × List CrawlTask × Option (CrawlTask × Bool) :=
  let url := r.task.url
  let site_id := r.task.site_id
  if ¬ r.found then
    (rmtree idx site_id url.path, [], none)
  else
    -- Ensure a root document exists when processing the root directory.
    let idx :=
      if url.isRoot ∧
          ¬ idx.docs.any (fun d => d.site_id = site_id ∧ d.is_root) then
        addDocument idx site_id url true
      else idx
    let dirname := rstripSlash url.path ++ "/"
    -- Snapshot of the site's documents whose DIRNAME slot equals dirname
    -- (the degenerate value range [dirname, dirname]).
    let indexed := idx.docs.filter
      (fun d => d.site_id = site_id ∧
        strLe dirname d.dirname ∧ strLe d.dirname dirname)
    let st := indexed.foldl (processIndexedEntry r site_id dirname)
      { idx := idx, dirChanged := false, indexedEntries := [] }
    -- Add new or modified entries and enqueue tasks for new directories.
    let final := r.entries.foldl
      (fun (acc : Index × List CrawlTask × Bool) e =>
        if e.1 ∈ st.indexedEntries then acc
        else
          ( addDocument acc.1 site_id e.2.url e.2.is_dir,
            acc.2.1 ++
              (if e.2.is_dir then [CrawlTask.new site_id e.2.url] else []),
            true ))
      (st.idx, [], st.dirChanged)
    (final.1, final.2.1, some (r.task, final.2.2))

end IndexProcessor

/-! ### IndexSearcher (src/arachne/searcher.py)

A Xapian query tree is embedded as an inductive type with its boolean
matching semantics over a document viewed as its set of indexed terms
(the prefixed strings added by _create_document).  Weights and scaling
affect ranking only, never the set of matching documents; OP_AND_MAYBE
matches exactly when its left operand matches; OP_FILTER matches when
both operands match; xapian.Query('') is the match-all query and
xapian.Query() the match-nothing query. -/

/-- A Xapian query as built by IndexSearcher._parse_query.  The n-ary
OP_AND and OP_OR combinations over a list of subqueries are built by
opAndOfList and opOrOfList below. -/
inductive XQuery where
  | matchNothing : XQuery
  | matchAll : XQuery
  | term : String → XQuery
  | opOr2 : XQuery → XQuery → XQuery
  | opAnd2 : XQuery → XQuery → XQuery
  | andMaybe : XQuery → XQuery → XQuery
  | andNot : XQuery → XQuery → XQuery
  | filter : XQuery → XQuery → XQuery
  | scaleWeight : Nat → XQuery → XQuery

/-- xapian.Query(OP_OR, list): matches when any subquery matches. -/
def XQuery.opOrOfList : List XQuery → XQuery
  | [] => .matchNothing
  | [q] => q
  | q :: q2 :: rest => .opOr2 q (opOrOfList (q2 :: rest))

/-- xapian.Query(OP_AND, list): matches when every subquery matches. -/
def XQuery.opAndOfList : List XQuery → XQuery
  | [] => .matchAll
  | [q] => q
  | q :: q2 :: rest => .opAnd2 q (opAndOfList (q2 :: rest))

/-- Boolean matching semantics of a query over the terms of a document. -/
def XQuery.matches (doc : List String) : XQuery → Bool
  | .matchNothing => false
  | .matchAll => true
  | .term t => doc.contains t
  | .opOr2 a b => a.matches doc || b.matches doc
  | .opAnd2 a b => a.matches doc && b.matches doc
  | .andMaybe a _ => a.matches doc
  | .andNot a b => a.matches doc && ! b.matches doc
  | .filter a b => a.matches doc && b.matches doc
  | .scaleWeight _ a => a.matches doc

namespace IndexSearcher

/-- Filetype constants (searcher.py lines 34-36). -/
def SEARCH_ALL : Nat := 0

/-- SEARCH_FILE (searcher.py line 35). -/
def SEARCH_FILE : Nat := 1

/-- SEARCH_DIRECTORY (searcher.py line 36). -/
def SEARCH_DIRECTORY : Nat := 2

/-- The query string parsing loop of _parse_query (searcher.py lines
99-115): split the query on whitespace and sort each token's extracted
terms into the plus, minus and normal buckets.  The Python sets are
modelled as duplicate-free lists. -/
def parseQueryTerms (query : String) :
    List String × List String × List String :=
  (pySplitWs query).foldl
    (fun (acc : List String × List String × List String) tok =>
      let tok := pyStrip tok
      if pyStartswith tok "+" then
        let tok := String.mk (tok.toList.drop 1)
        if tok ≠ "" then
          ((IndexProcessor.getTerms tok).foldl IndexProcessor.setAdd acc.1,
            acc.2.1, acc.2.2)
        else acc
      else if pyStartswith tok "-" then
        let tok := String.mk (tok.toList.drop 1)
        if tok ≠ "" then
          (acc.1,
            (IndexProcessor.getTerms tok).foldl IndexProcessor.setAdd acc.2.1,
            acc.2.2)
        else acc
      else
        if tok ≠ "" then
          (acc.1, acc.2.1,
            (IndexProcessor.getTerms tok).foldl IndexProcessor.setAdd acc.2.2)
        else acc)
    ([], [], [])

/-- The combination of the plus, normal/stemmed and minus subqueries
(searcher.py lines 172-190): start from the plus query, attach the
normal-or-stemmed OR tree with OP_AND_MAYBE, and subtract the minus query
with OP_AND_NOT (against the match-all query xapian.Query('') when
nothing else was given). -/
def combineBuckets (plusQuery normalQuery stemmedQuery minusQuery :
    Option XQuery) : Option XQuery :=
  let q : Option XQuery := plusQuery
  let q : Option XQuery :=
    match normalQuery with
    | some nq =>
      let common := XQuery.opOr2 nq (stemmedQuery.getD .matchNothing)
      match q with
      | some q0 => some (.andMaybe q0 common)
      | none => some common
    | none => q
  match minusQuery with
  | some mq =>
    match q with
    | some q0 => some (.andNot q0 mq)
    | none => some (.andNot .matchAll mq)
  | none => q

/-- The site-id and filetype OP_FILTERs applied to the final query
(searcher.py lines 195-201). -/
def applySiteFiletypeFilters (siteIdsQuery filetypeQuery : Option XQuery)
    (q0 : XQuery) : XQuery :=
  let q1 := match siteIdsQuery with
    | some sq => XQuery.filter q0 sq
    | none => q0
  match filetypeQuery with
  | some fq => XQuery.filter q1 fq
  | none => q1

/-- IndexSearcher._parse_query (searcher.py lines 96-202).  `stemmers`
holds the Snowball stemmer of each language in STEM_LANGS; the stemmer
implementations live in the Xapian library, outside this repository, so
the query builder is parametrized over them. -/
def parseQuery (stemmers : List (String → String)) (query : String)
    (siteIds : List String) (filetype : Nat) : XQuery :=
  let buckets := parseQueryTerms query
  let plusTerms := buckets.1
  let minusTerms := buckets.2.1
  let normalTerms := buckets.2.2
  let plusQuery : Option XQuery :=
    if plusTerms ≠ [] then
      some (XQuery.opAndOfList (plusTerms.map (fun t => .term ("B" ++ t))))
    else none
  let minusQuery : Option XQuery :=
    if minusTerms ≠ [] then
      some (XQuery.opOrOfList (minusTerms.map (fun t => .term ("B" ++ t))))
    else none
  let normalQuery : Option XQuery :=
    if normalTerms ≠ [] then
      some (.opOr2
        (.scaleWeight 10
          (XQuery.opOrOfList (normalTerms.map (fun t => .term ("B" ++ t)))))
        (.scaleWeight 2
          (XQuery.opOrOfList (normalTerms.map (fun t => .term ("D" ++ t))))))
    else none
  let stemmedTerms := normalTerms.foldl
    (fun acc t => stemmers.foldl
      (fun acc2 stem => IndexProcessor.setAdd acc2 (stem t)) acc) []
  let stemmedQuery : Option XQuery :=
    if stemmedTerms ≠ [] then
      some (XQuery.opOrOfList (stemmedTerms.map (fun t => .term ("Z" ++ t))))
    else none
  let filetypeQuery : Option XQuery :=
    if filetype = SEARCH_FILE then some (.term "I0")
    else if filetype = SEARCH_DIRECTORY then some (.term "I1")
    else none
  let siteIdsQuery : Option XQuery :=
    if siteIds ≠ [] then
      some (XQuery.opOrOfList (siteIds.map (fun sid => .term ("S" ++ sid))))
    else none
  match combineBuckets plusQuery normalQuery stemmedQuery minusQuery with
  | none => .matchNothing
  | some q0 => applySiteFiletypeFilters siteIdsQuery filetypeQuery q0

end IndexSearcher

/-! ### Stored-task uniqueness (spec section 3, CrawlTask invariant) -/

namespace TaskQueue

/-- All tasks stored in the queue, in database order. -/
def storedTasks (q : TaskQueue) : List CrawlTask :=
  q.taskDbs.flatMap (fun p => p.2.map (fun e => e.2))

/-- Number of stored tasks carrying the given (site_id, url) pair. -/
def pairCount (q : TaskQueue) (sid : String) (url : URL) : Nat :=
  (q.storedTasks.filter (fun t => t.site_id = sid ∧ t.url = url)).length

/-- The queue holds the given (site_id, url) pair. -/
def hasPair (q : TaskQueue) (sid : String) (url : URL) : Bool :=
  q.storedTasks.any (fun t => t.site_id = sid ∧ t.url = url)

/-- Every (site_id, url) pair occurs at most once among the stored
tasks. -/
def UniquePairs (q : TaskQueue) : Prop :=
  q.storedTasks.Pairwise
    (fun a b => ¬ (a.site_id = b.site_id ∧ a.url = b.url))

/-- Structural well-formedness of the databases: the task databases are
keyed by distinct site ids and every task is stored in the database of
its own site (TaskQueue._put files each task under task.site_id). -/
def WellKeyed (q : TaskQueue) : Prop :=
  (q.taskDbs.map (fun p => p.1)).Nodup ∧
    ∀ p ∈ q.taskDbs, ∀ e ∈ p.2, e.2.site_id = p.1

/-- One public TaskQueue operation, performed at time `now`.  The three
operations that insert a task (put_new, put_visited and the reinsertion
of report_error_dir) carry the protocol side condition that the inserted
pair is not (or, for report_error_dir, no longer) stored: the queue
itself never deduplicates. -/
inductive Step (now : Int) : TaskQueue → TaskQueue → Prop where
  | putNew (q q2 : TaskQueue) (task : CrawlTask)
      (habs : q.hasPair task.site_id task.url = false)
      (hop : q.putNew now task = some q2) : Step now q q2
  | putVisited (q q2 : TaskQueue) (task : CrawlTask) (changed : Bool)
      (habs : q.hasPair task.site_id task.url = false)
      (hop : q.putVisited now task changed = some q2) : Step now q q2
  | get (q : TaskQueue) : Step now q (q.get now).2
  | reportDone (q q2 : TaskQueue) (task : CrawlTask)
      (hop : q.reportDone now task = some q2) : Step now q q2
  | reportErrorSite (q q2 : TaskQueue) (task : CrawlTask)
      (hop : q.reportErrorSite now task = some q2) : Step now q q2
  | reportErrorDir (q q2 : TaskQueue) (task : CrawlTask) (db : List (Int × CrawlTask))
      (hdb : alookup q.taskDbs task.site_id = some db)
      (habs : ((db.drop 1).map (fun e => e.2)).all
        (fun t => ¬ (t.site_id = task.site_id ∧ t.url = task.url)))
      (hop : q.reportErrorDir now task = some q2) : Step now q q2

/-- States reachable from a fresh startup reconciliation by any sequence
of public operations respecting the insertion side conditions. -/
inductive Reachable : TaskQueue → Prop where
  | init (now : Int) (sitesInfo : List (String × SiteInfo))
      (hnodup : (sitesInfo.map (fun p => p.1)).Nodup) :
      Reachable (initFresh now sitesInfo)
  | step (q q2 : TaskQueue) (now : Int) (h : Reachable q)
      (hs : Step now q q2) : Reachable q2

end TaskQueue

end Arachne

/-! ## Theorems -/

open Arachne


/-! ### Concrete inputs used in counterexamples and witnesses -/

/-- C2 failing input, the index: site "s" holds the root document
(PATH "/"), a subdirectory document (PATH "/a", DIRNAME "/",
BASENAME "a") and a descendant document (PATH "/a/x", DIRNAME "/a/"). -/
def c2Index : Arachne.Index :=
  { nextId := 3,
    docs := [
      { docid := 0, site_id := "s", is_dir := true, is_root := true,
        basename := "/", dirname := "/", path := "/" },
      { docid := 1, site_id := "s", is_dir := true, is_root := false,
        basename := "a", dirname := "/", path := "/a" },
      { docid := 2, site_id := "s", is_dir := false, is_root := false,
        basename := "x", dirname := "/a/", path := "/a/x" }] }

/-- C2 failing input, the result: a found=true listing of the root
directory with no entries (E = {}). -/
def c2Result : Arachne.CrawlResult :=
  { task := Arachne.CrawlTask.new "s" { path := "/", isRoot := true },
    found := true, entries := [] }

/-- C1 counterexample input, the index: the site "s" document under
"/a" whose DIRNAME slot starts with "/a/" but contains the maximal code
point U+10FFFF right after that prefix, so it sorts above the range end
"/a/" + U+10FFFF used by _rmtree. -/
def c1Index : Arachne.Index :=
  { nextId := 8,
    docs := [
      { docid := 1, site_id := "s", is_dir := true, is_root := false,
        basename := "a", dirname := "/", path := "/a" },
      { docid := 2, site_id := "s", is_dir := false, is_root := false,
        basename := "x", dirname := "/a/", path := "/a/x" },
      { docid := 7, site_id := "s", is_dir := false, is_root := false,
        basename := "y",
        dirname := "/a/" ++ String.mk [Arachne.maxChar] ++ "b/",
        path := "/a/" ++ String.mk [Arachne.maxChar] ++ "b/y" }] }

/-- C1, a found=false result for the directory "/a" of site "s". -/
def c1Result : Arachne.CrawlResult :=
  { task := Arachne.CrawlTask.new "s" { path := "/a", isRoot := false },
    found := false, entries := [] }

/-- C1 witness input: the same index without the U+10FFFF document. -/
def c1CleanIndex : Arachne.Index :=
  { nextId := 3,
    docs := [
      { docid := 1, site_id := "s", is_dir := true, is_root := false,
        basename := "a", dirname := "/", path := "/a" },
      { docid := 2, site_id := "s", is_dir := false, is_root := false,
        basename := "x", dirname := "/a/", path := "/a/x" }] }

/-- C7 witness input: a result of site "s" for the root directory with
one file entry. -/
def c7Result : Arachne.CrawlResult :=
  (Arachne.CrawlResult.new
    (Arachne.CrawlTask.new "s" { path := "/", isRoot := true }) true).append
    "b.txt" false

/-- C5/C3/C4 witness input: the per-site configuration. -/
def cSi : Arachne.SiteInfo :=
  { url := { path := "/", isRoot := true },
    request_wait := 30,
    error_dir_wait := 60,
    error_site_wait := 120,
    default_revisit_wait := 100,
    min_revisit_wait := 10,
    max_revisit_wait := 400 }

/-- C5 witness input: a queue for the single site "s" with an empty task
database. -/
def c5Queue : Arachne.TaskQueue :=
  { sitesQ := [(1000, "s")], taskDbs := [("s", [])],
    sitesInfo := [("s", cSi)] }

/-- C5 witness input: a task on its fifth completed visit with no change
ever observed. -/
def c5Task : Arachne.CrawlTask :=
  { site_id := "s", url := { path := "/a", isRoot := false },
    revisit_wait := 12, revisit_count := 4, change_count := 0 }

/-- C6 counterexample input: a task whose five visits all observed a
change (change_count = revisit_count = 5) and whose current wait is 12
seconds. -/
def c6Task : Arachne.CrawlTask :=
  { site_id := "s", url := { path := "/a", isRoot := false },
    revisit_wait := 12, revisit_count := 5, change_count := 5 }

/-- C8 inputs: stand-ins for the two Snowball stemmers (the stemmer
implementations live in the Xapian library, outside this repository; the
counterexample does not depend on their behaviour). -/
def c8Stemmers : List (String → String) := [fun s => s, fun s => s]

/-- C8 input: a document whose basename terms contain foo and whose
dirname terms contain bar. -/
def c8Doc : List String := ["Bfoo", "Dbar"]

/-- C3 witness input: a one-site queue holding the root task, due at
time 1000. -/
def c3Queue : Arachne.TaskQueue :=
  { sitesQ := [(1000, "s")],
    taskDbs := [("s",
      [(1000, Arachne.CrawlTask.new "s" { path := "/", isRoot := true })])],
    sitesInfo := [("s", cSi)] }

/-! ### C9: the term extractor on "Python-3.0rc1.tar.bz2" -/

/-- C9, counterexample: the claim states that the term extractor applied
to "Python-3.0rc1.tar.bz2" returns a set containing at least python, 3.0,
tar and bz; but bz is not returned: it has length 2, below
_MIN_TERM_LENGTH = 3, and is not in _VALID_SHORT_TERMS (single digits, c
and C), so the claim is false.  The test
src/test/testindexprocessor.py expects exactly
[python, 3.0, 1, tar, 2] for this input, confirming the code's
behaviour. -/
theorem getTerms_python_tarball_no_bz :
    "bz" ∉ Arachne.IndexProcessor.getTerms "Python-3.0rc1.tar.bz2" := by
  decide

/-- C9, amended: the term extractor applied to "Python-3.0rc1.tar.bz2"
returns exactly the set {python, 3.0, 1, tar, 2}; in particular it
contains python, 3.0 and tar, and the whitelisted short numerics 1 and 2,
but not bz, whose length 2 fails the length rule and which is not
whitelisted. -/
theorem getTerms_python_tarball :
    Arachne.IndexProcessor.getTerms "Python-3.0rc1.tar.bz2" =
      ["python", "3.0", "1", "tar", "2"] := by
  decide

/-! ### C10: totality of FTPHandler._parse_list -/

/-- C10: the claim states that _parse_list is total and in particular
returns None or a pair for an EPLF line (starting with '+') containing no
TAB character.  The code is wrong there and contradicts its own
docstring ("None is returned if could not parse the line"): for the line
"+foo", line[1:].split('\t') yields the one-element list ['foo'], and
unpacking it into (facts, name) raises ValueError, which the enclosing
except clause (catching only IndexError) does not catch, so _parse_list
raises instead of returning. -/
theorem parseList_eplf_without_tab_raises :
    Arachne.FTPHandler.parseList "+foo" =
      Except.error Arachne.PyExc.valueError := by
  rfl

/-- C2: the claim (matching the spec and the _rmtree docstring, which
promises that "the document of the root of the directory tree is also
removed") states that after processing a found=true result for directory
P listing entry set E, the set of basenames of the site's documents with
DIRNAME slot P.rstrip('/') + '/' (excluding the root's own document)
equals E.  The code is wrong on the failing input held by c2Index and
c2Result: for the absent directory entry "a" it calls
_rmtree(site_id, "/a/"), whose first pass deletes documents whose PATH
slot equals "/a/" — but PATH slots never carry a trailing slash (URL
paths are normalized), so the document of "/a" itself (PATH "/a")
survives while its descendant "/a/x" is deleted by the DIRNAME range
pass.  The surviving basename set is {"a"}, not E = {}. -/
theorem process_found_leaves_absent_subdirectory_document :
    ((Arachne.IndexProcessor.process c2Index c2Result).1.docs.filter
        (fun d => d.site_id = "s" ∧ d.dirname = "/" ∧ d.basename ≠ "/")).map
        (fun d => d.basename) = ["a"] ∧
    ((Arachne.IndexProcessor.process c2Index c2Result).1.docs.map
        (fun d => d.path)) = ["/", "/a"] := by
  decide

/-! ### C1: subtree removal for found=false results

The removal of descendants uses the Xapian value range
[P.rstrip('/') + '/', P.rstrip('/') + '/' + u'\U0010ffff'] on the DIRNAME
slot.  Membership in this range agrees with "DIRNAME starts with
P.rstrip('/') + '/'" for every string not containing the maximal code
point U+10FFFF, but a DIRNAME that continues after an occurrence of
U+10FFFF right at the end of the prefix sorts above the range end and is
missed.  The claim is stated with "starts with", so it fails on such
documents and holds on all others. -/

theorem char_lt_maxChar (c : Char) (h : c ≠ Arachne.maxChar) :
    c < Arachne.maxChar := by
  apply lt_of_le_of_ne _ h
  rw [Char.le_def, UInt32.le_def]
  have hv := c.valid
  unfold UInt32.isValidChar Nat.isValidChar at hv
  have h2 : (Arachne.maxChar).val.toBitVec = 1114111#32 := by decide
  rw [h2, BitVec.le_def]
  have h3 : c.val.toBitVec.toNat = c.val.toNat := rfl
  have h4 : (1114111#32).toNat = 1114111 := by decide
  rw [h3, h4]
  omega

theorem strLeChars_refl (l : List Char) : Arachne.strLeChars l l = true := by
  induction l with
  | nil => rfl
  | cons a as ih => simp [Arachne.strLeChars, lt_irrefl, ih]

theorem strLeChars_of_isPrefixOf :
    ∀ {p l : List Char}, List.isPrefixOf p l = true →
      Arachne.strLeChars p l = true := by
  intro p
  induction p with
  | nil => intro l _; rfl
  | cons a as ih =>
    intro l hp
    cases l with
    | nil => simp [List.isPrefixOf] at hp
    | cons b bs =>
      simp only [List.isPrefixOf, Bool.and_eq_true, beq_iff_eq] at hp
      obtain ⟨rfl, hp2⟩ := hp
      simp [Arachne.strLeChars, lt_irrefl, ih hp2]

theorem strLeChars_le_prefix_append_maxChar :
    ∀ {p l : List Char}, List.isPrefixOf p l = true →
      Arachne.maxChar ∉ l →
      Arachne.strLeChars l (p ++ [Arachne.maxChar]) = true := by
  intro p
  induction p with
  | nil =>
    intro l _ hm
    cases l with
    | nil => rfl
    | cons c cs =>
      have hc : c < Arachne.maxChar := by
        apply char_lt_maxChar
        intro he
        exact hm (he ▸ List.mem_cons_self c cs)
      simp [Arachne.strLeChars, hc]
  | cons a as ih =>
    intro l hp hm
    cases l with
    | nil => simp [List.isPrefixOf] at hp
    | cons b bs =>
      simp only [List.isPrefixOf, Bool.and_eq_true, beq_iff_eq] at hp
      obtain ⟨rfl, hp2⟩ := hp
      have hm2 : Arachne.maxChar ∉ bs := fun h => hm (List.mem_cons_of_mem _ h)
      simp [Arachne.strLeChars, lt_irrefl, ih hp2 hm2]

/-- C1, amended: after IndexProcessor.process handles a found=false
result whose task URL has path P, the site's index contains no document
whose PATH slot equals P and no document whose DIRNAME slot starts with
P.rstrip('/') + '/', provided no stored DIRNAME slot contains the maximal
code point U+10FFFF (the deletion uses the value range
[P', P' + U+10FFFF], which coincides with the starts-with test exactly
under this proviso). -/
theorem process_not_found_removes_subtree
    (idx : Arachne.Index) (r : Arachne.CrawlResult)
    (hfound : r.found = false)
    (hclean : ∀ d ∈ idx.docs, Arachne.maxChar ∉ d.dirname.toList) :
    ∀ d ∈ (Arachne.IndexProcessor.process idx r).1.docs,
      d.site_id = r.task.site_id →
        d.path ≠ r.task.url.path ∧
        Arachne.pyStartswith d.dirname
          (Arachne.rstripSlash r.task.url.path ++ "/") = false := by
  intro d hd hsite
  simp only [Arachne.IndexProcessor.process, hfound, Bool.false_eq_true,
    not_false_eq_true, if_true] at hd
  simp only [Arachne.IndexProcessor.rmtree, List.mem_filter,
    decide_eq_true_eq] at hd
  obtain ⟨⟨hmem, h1⟩, h2⟩ := hd
  constructor
  · intro heq
    exact h1 ⟨hsite, heq ▸ strLeChars_refl _, heq ▸ strLeChars_refl _⟩
  · by_contra hpre
    rw [Bool.not_eq_false] at hpre
    unfold Arachne.pyStartswith at hpre
    apply h2
    refine ⟨hsite, strLeChars_of_isPrefixOf hpre, ?_⟩
    unfold Arachne.strLe
    have htl : (Arachne.rstripSlash r.task.url.path ++ "/" ++
        String.mk [Arachne.maxChar]).toList =
        (Arachne.rstripSlash r.task.url.path ++ "/").toList ++ [Arachne.maxChar] := by
      simp [String.toList, String.data_append]
    rw [htl]
    exact strLeChars_le_prefix_append_maxChar hpre (hclean d hmem)

/-- C1, counterexample: the claim as stated ("no document of the site
whose DIRNAME slot starts with P.rstrip('/') + '/' remains") is false.
After processing the found=false result for P = "/a" of site "s" on
c1Index, the document whose DIRNAME slot is "/a/" followed by U+10FFFF
and more characters still carries the prefix "/a/" but sorts above the
range end "/a/" + U+10FFFF of the value range used by _rmtree, so it
survives. -/
theorem process_not_found_misses_maxchar_dirname :
    ((Arachne.IndexProcessor.process c1Index c1Result).1.docs.any
      (fun d => d.site_id = "s" ∧
        Arachne.pyStartswith d.dirname "/a/" = true)) = true := by
  decide

/-- Witness for the amended C1 theorem at the concrete clean index. -/
theorem process_not_found_removes_subtree_witness :
    (c1Result.found = false ∧
      ∀ d ∈ c1CleanIndex.docs, Arachne.maxChar ∉ d.dirname.toList) ∧
    (∀ d ∈ (Arachne.IndexProcessor.process c1CleanIndex c1Result).1.docs,
      d.site_id = c1Result.task.site_id →
        d.path ≠ c1Result.task.url.path ∧
        Arachne.pyStartswith d.dirname
          (Arachne.rstripSlash c1Result.task.url.path ++ "/") = false) :=
  ⟨⟨by decide, by decide⟩,
    process_not_found_removes_subtree c1CleanIndex c1Result (by decide)
      (by decide)⟩

/-! ### C7: ResultQueue round-trip -/

theorem alookup_cons_eq {α : Type} (p : String × α) (l : List (String × α)) :
    Arachne.alookup (p :: l) p.1 = some p.2 := by
  simp [Arachne.alookup, List.find?]

theorem alookup_cons_ne {α : Type} (p : String × α) (l : List (String × α))
    (k : String) (h : p.1 ≠ k) :
    Arachne.alookup (p :: l) k = Arachne.alookup l k := by
  simp [Arachne.alookup, List.find?, h]

theorem aset_cons {α : Type} (p : String × α) (l : List (String × α))
    (k : String) (v : α) :
    Arachne.aset (p :: l) k v =
      (if p.1 = k then (p.1, v) else p) :: Arachne.aset l k v := by
  simp [Arachne.aset]

theorem alookup_map_nil (sids : List String) (sid : String)
    (h : sid ∈ sids) :
    Arachne.alookup (sids.map (fun s => (s, ([] : List Arachne.CrawlResult))))
      sid = some [] := by
  induction sids with
  | nil => simp at h
  | cons s rest ih =>
    rw [List.map_cons]
    by_cases hs : s = sid
    · subst hs
      exact alookup_cons_eq (s, []) _
    · rcases List.mem_cons.mp h with h1 | h2
      · exact absurd h1.symm hs
      · rw [alookup_cons_ne _ _ _ hs]
        exact ih h2

theorem alookup_aset_self {α : Type} (l : List (String × α)) (k : String)
    (v w : α) (h : Arachne.alookup l k = some w) :
    Arachne.alookup (Arachne.aset l k v) k = some v := by
  induction l with
  | nil => simp [Arachne.alookup] at h
  | cons p rest ih =>
    rw [aset_cons]
    by_cases hp : p.1 = k
    · rw [if_pos hp]
      have : ((p.1, v) : String × α).1 = k := hp
      rw [← this]
      exact alookup_cons_eq (p.1, v) _
    · rw [if_neg hp, alookup_cons_ne _ _ _ hp]
      rw [alookup_cons_ne _ _ _ hp] at h
      exact ih h

theorem aset_of_not_mem {α : Type} (l : List (String × α)) (k : String)
    (v : α) (h : ∀ p ∈ l, p.1 ≠ k) : Arachne.aset l k v = l := by
  induction l with
  | nil => rfl
  | cons p rest ih =>
    rw [aset_cons, if_neg (h p (List.mem_cons_self p rest))]
    rw [ih (fun q hq => h q (List.mem_cons_of_mem p hq))]

theorem sum_lengths_map_nil (rest : List String) :
    ((rest.map (fun s => (s, ([] : List Arachne.CrawlResult)))).map
      (fun p => p.2.length)).sum = 0 := by
  induction rest with
  | nil => rfl
  | cons s r ih => simpa using ih

theorem sum_lengths_aset (sids : List String) (sid : String)
    (db : List Arachne.CrawlResult) (hnd : sids.Nodup) (h : sid ∈ sids) :
    ((Arachne.aset (sids.map (fun s => (s, ([] : List Arachne.CrawlResult))))
        sid db).map (fun p => p.2.length)).sum = db.length := by
  induction sids with
  | nil => simp at h
  | cons s rest ih =>
    rcases List.nodup_cons.mp hnd with ⟨hs, hrest⟩
    rw [List.map_cons, aset_cons]
    by_cases heq : s = sid
    · subst heq
      rw [if_pos rfl]
      have hnot : ∀ p ∈ rest.map
          (fun t => (t, ([] : List Arachne.CrawlResult))), p.1 ≠ s := by
        intro p hp
        rcases List.mem_map.mp hp with ⟨t, ht, rfl⟩
        exact fun he => hs (he ▸ ht)
      rw [aset_of_not_mem _ _ _ hnot]
      simp only [List.map_cons, List.sum_cons]
      rw [sum_lengths_map_nil rest]
      omega
    · rcases List.mem_cons.mp h with h1 | h2
      · exact absurd h1.symm heq
      · rw [if_neg heq]
        simpa using ih hrest h2

theorem aset_aset {α : Type} (l : List (String × α)) (k : String) (v w : α) :
    Arachne.aset (Arachne.aset l k v) k w = Arachne.aset l k w := by
  induction l with
  | nil => rfl
  | cons p rest ih =>
    rw [aset_cons, aset_cons, aset_cons]
    by_cases hp : p.1 = k
    · simp [hp, ih]
    · simp [hp, ih]

/-- C7: for every CrawlResult r of a configured site, put(r) on an empty
ResultQueue followed by get() returns the very same result r without
consuming it, the queue then holds exactly one result, and report_done(r)
removes it, decreasing len() by exactly 1 (from 1 to 0). -/
theorem resultQueue_put_get_reportDone (sids : List String)
    (r : Arachne.CrawlResult) (hnd : sids.Nodup)
    (hmem : r.task.site_id ∈ sids) :
    ∃ q1, (Arachne.ResultQueue.empty sids).put r = some q1 ∧
      (q1.get).1 = some r ∧ (q1.get).2 = q1 ∧ q1.size = 1 ∧
      ∃ q2, q1.reportDone r = some q2 ∧ q2.size = 0 := by
  have hbase := alookup_map_nil sids r.task.site_id hmem
  refine ⟨{ sitesQ := [r.task.site_id],
            resultDbs := Arachne.aset
              (sids.map (fun s => (s, ([] : List Arachne.CrawlResult))))
              r.task.site_id [r] }, ?_, ?_, ?_, ?_, ?_⟩
  · simp only [Arachne.ResultQueue.put, Arachne.ResultQueue.empty, hbase]
    rfl
  · simp only [Arachne.ResultQueue.get, Arachne.ResultQueue.getAux,
      List.isEmpty_cons, Bool.false_eq_true, if_false,
      alookup_aset_self _ _ _ _ hbase]
  · simp only [Arachne.ResultQueue.get, Arachne.ResultQueue.getAux,
      List.isEmpty_cons, Bool.false_eq_true, if_false,
      alookup_aset_self _ _ _ _ hbase]
  · simpa [Arachne.ResultQueue.size] using
      sum_lengths_aset sids r.task.site_id [r] hnd hmem
  · refine ⟨{ sitesQ := [],
              resultDbs := Arachne.aset
                (sids.map (fun s => (s, ([] : List Arachne.CrawlResult))))
                r.task.site_id [] }, ?_, ?_⟩
    · simp only [Arachne.ResultQueue.reportDone,
        alookup_aset_self _ _ _ _ hbase, aset_aset]
    · simpa [Arachne.ResultQueue.size] using
        sum_lengths_aset sids r.task.site_id [] hnd hmem

/-- Witness for the C7 theorem at the concrete one-site queue. -/
theorem resultQueue_put_get_reportDone_witness :
    (["s"].Nodup ∧ c7Result.task.site_id ∈ ["s"]) ∧
    (∃ q1, (Arachne.ResultQueue.empty ["s"]).put c7Result = some q1 ∧
      (q1.get).1 = some c7Result ∧ (q1.get).2 = q1 ∧ q1.size = 1 ∧
      ∃ q2, q1.reportDone c7Result = some q2 ∧ q2.size = 0) :=
  ⟨⟨by decide, by decide⟩,
    resultQueue_put_get_reportDone ["s"] c7Result (by decide) (by decide)⟩

/-! ### C5 and C6: the revisit estimator -/

theorem estimateRevisitWait_no_change (t : Arachne.CrawlTask)
    (h : t.change_count = 0) :
    Arachne.TaskQueue.estimateRevisitWait t =
      t.revisit_wait * t.revisit_count := by
  unfold Arachne.TaskQueue.estimateRevisitWait
  rw [h]
  norm_num
  rw [← Int.cast_mul, round_intCast]

/-- C5: when a put_visited call with changed=false brings revisit_count
to at least 5 (REVISIT_SAMPLES) on a task whose change_count is 0 (no
visit observed a change), the task is re-stored (at key now + new wait)
with revisit_wait = revisit_wait * revisit_count — an integer product, so
rounding to the nearest whole second is the identity — clamped to
[min_revisit_wait, max_revisit_wait], and both revisit_count and
change_count reset to 0. -/
theorem putVisited_no_change (now : Int) (q : Arachne.TaskQueue)
    (task : Arachne.CrawlTask) (si : Arachne.SiteInfo)
    (db : List (Int × Arachne.CrawlTask))
    (hsi : Arachne.alookup q.sitesInfo task.site_id = some si)
    (hdb : Arachne.alookup q.taskDbs task.site_id = some db)
    (hcount : 5 ≤ task.revisit_count + 1)
    (hchange : task.change_count = 0) :
    q.putVisited now task false =
      some { q with
        taskDbs := Arachne.aset q.taskDbs task.site_id
          (Arachne.btreePut db
            (now + min si.max_revisit_wait (max si.min_revisit_wait
              (task.revisit_wait * (task.revisit_count + 1))))
            { task with
              revisit_wait := min si.max_revisit_wait
                (max si.min_revisit_wait
                  (task.revisit_wait * (task.revisit_count + 1))),
              revisit_count := 0, change_count := 0 }) } := by
  unfold Arachne.TaskQueue.putVisited
  rw [hsi]
  have hrv : task.reportVisit false =
      { task with revisit_count := task.revisit_count + 1 } := by
    simp [Arachne.CrawlTask.reportVisit]
  rw [hrv]
  have hne : ¬ (task.revisit_count + 1 = 0) := by omega
  have hge : task.revisit_count + 1 ≥ Arachne.TaskQueue.revisits := hcount
  simp only [if_neg hne, if_pos hge]
  have hch2 : ({ task with revisit_count := task.revisit_count + 1 } :
      Arachne.CrawlTask).change_count = 0 := hchange
  have hest : Arachne.TaskQueue.estimateRevisitWait
      { task with revisit_count := task.revisit_count + 1 } =
      task.revisit_wait * (task.revisit_count + 1) := by
    rw [estimateRevisitWait_no_change _ hch2]
  rw [hest]
  unfold Arachne.CrawlTask.resetCounters Arachne.TaskQueue.putTask
  rw [hdb]

/-- Witness for the C5 theorem at the concrete queue and task. -/
theorem putVisited_no_change_witness :
    (Arachne.alookup c5Queue.sitesInfo c5Task.site_id = some cSi ∧
      Arachne.alookup c5Queue.taskDbs c5Task.site_id = some [] ∧
      5 ≤ c5Task.revisit_count + 1 ∧ c5Task.change_count = 0) ∧
    c5Queue.putVisited 1000 c5Task false =
      some { c5Queue with
        taskDbs := Arachne.aset c5Queue.taskDbs c5Task.site_id
          (Arachne.btreePut []
            (1000 + min cSi.max_revisit_wait (max cSi.min_revisit_wait
              (c5Task.revisit_wait * (c5Task.revisit_count + 1))))
            { c5Task with
              revisit_wait := min cSi.max_revisit_wait
                (max cSi.min_revisit_wait
                  (c5Task.revisit_wait * (c5Task.revisit_count + 1))),
              revisit_count := 0, change_count := 0 }) } :=
  ⟨⟨by decide, by decide, by decide, by decide⟩,
    putVisited_no_change 1000 c5Queue c5Task cSi [] (by decide) (by decide)
      (by decide) (by decide)⟩

/-- C6, amended: when every one of the (at least one) visits observed a
change (change_count = revisit_count), the estimator yields
new_wait = revisit_wait / ln(2 * revisit_count + 1) rounded to the
nearest whole second — not revisit_wait: the ratio inside the logarithm
is 0.5 / (revisit_count + 0.5) = 1 / (2 * revisit_count + 1). -/
theorem estimateRevisitWait_all_changed (t : Arachne.CrawlTask)
    (hc : t.change_count = t.revisit_count) (h1 : 1 ≤ t.revisit_count) :
    Arachne.TaskQueue.estimateRevisitWait t =
      round ((t.revisit_wait : ℝ) /
        Real.log (2 * (t.revisit_count : ℝ) + 1)) := by
  unfold Arachne.TaskQueue.estimateRevisitWait
  rw [hc, if_pos (by omega : (0 : Int) < t.revisit_count)]
  have hv : (1 : ℝ) ≤ (t.revisit_count : ℝ) := by exact_mod_cast h1
  have hne1 : ((t.revisit_count : ℝ) + 0.5) ≠ 0 := by linarith
  have hne2 : (2 * (t.revisit_count : ℝ) + 1) ≠ 0 := by linarith
  have hratio : ((t.revisit_count : ℝ) - (t.revisit_count : ℝ) + 0.5) /
      ((t.revisit_count : ℝ) + 0.5) = (2 * (t.revisit_count : ℝ) + 1)⁻¹ := by
    field_simp
    ring
  rw [hratio, Real.log_inv, neg_neg]

/-- C6, counterexample: the claim states that with
change_count == revisit_count the estimator yields
new_wait = revisit_wait.  It is false at the concrete task with
revisit_wait 12 and revisit_count = change_count = 5: the estimator
yields round(12 / ln 11) ≤ 6 ≠ 12, because ln 11 > 2. -/
theorem estimateRevisitWait_all_changed_not_wait :
    Arachne.TaskQueue.estimateRevisitWait c6Task ≠ c6Task.revisit_wait := by
  rw [estimateRevisitWait_all_changed c6Task (by decide) (by decide)]
  have hcast : ((c6Task.revisit_wait : Int) : ℝ) = 12 := by norm_num [c6Task]
  have hcast2 : (2 * ((c6Task.revisit_count : Int) : ℝ) + 1) = 11 := by
    norm_num [c6Task]
  rw [hcast, hcast2]
  have hlog : (2 : ℝ) < Real.log 11 := by
    rw [Real.lt_log_iff_exp_lt (by norm_num : (0 : ℝ) < 11)]
    have he := Real.exp_one_lt_d9
    have hp : (0 : ℝ) ≤ Real.exp 1 := (Real.exp_pos 1).le
    calc Real.exp 2 = Real.exp 1 * Real.exp 1 := by
          rw [← Real.exp_add]; norm_num
      _ < 2.7182818286 * 2.7182818286 := mul_lt_mul'' he he hp hp
      _ < 11 := by norm_num
  have hlogpos : (0 : ℝ) < Real.log 11 := by linarith
  have hx : (12 : ℝ) / Real.log 11 < 6 := by
    rw [div_lt_iff₀ hlogpos]
    linarith
  have hround : round ((12 : ℝ) / Real.log 11) < 7 := by
    rw [round_eq, Int.floor_lt]
    push_cast
    linarith
  intro he
  rw [he] at hround
  norm_num [c6Task] at hround

/-- Witness for the amended C6 theorem at the concrete all-changed
task. -/
theorem estimateRevisitWait_all_changed_witness :
    (c6Task.change_count = c6Task.revisit_count ∧ 1 ≤ c6Task.revisit_count) ∧
    Arachne.TaskQueue.estimateRevisitWait c6Task =
      round ((c6Task.revisit_wait : ℝ) /
        Real.log (2 * (c6Task.revisit_count : ℝ) + 1)) :=
  ⟨⟨by decide, by decide⟩,
    estimateRevisitWait_all_changed c6Task (by decide) (by decide)⟩

/-! ### C8: minus terms in the searcher -/

theorem matches_applySiteFiletypeFilters (sq fq : Option Arachne.XQuery)
    (q0 : Arachne.XQuery) (d : List String)
    (h : (Arachne.IndexSearcher.applySiteFiletypeFilters sq fq q0).matches d
      = true) : q0.matches d = true := by
  cases sq <;> cases fq <;>
    simp only [Arachne.IndexSearcher.applySiteFiletypeFilters,
      Arachne.XQuery.matches, Bool.and_eq_true, decide_eq_true_eq] at h <;>
    tauto

theorem combineBuckets_minus_shape (p n s : Option Arachne.XQuery)
    (mq : Arachne.XQuery) :
    ∃ base, Arachne.IndexSearcher.combineBuckets p n s (some mq) =
      some (Arachne.XQuery.andNot base mq) := by
  cases p <;> cases n <;>
    simp [Arachne.IndexSearcher.combineBuckets]

theorem matches_opOrOfList_false (d : List String) :
    ∀ (qs : List Arachne.XQuery),
      (Arachne.XQuery.opOrOfList qs).matches d = false →
        ∀ q ∈ qs, q.matches d = false := by
  intro qs
  induction qs with
  | nil => intro _ q hq; simp at hq
  | cons a rest ih =>
    intro h q hq
    cases rest with
    | nil =>
      simp only [Arachne.XQuery.opOrOfList] at h
      rcases List.mem_singleton.mp hq with rfl
      exact h
    | cons b brest =>
      simp only [Arachne.XQuery.opOrOfList, Arachne.XQuery.matches,
        Bool.or_eq_false_iff] at h
      rcases List.mem_cons.mp hq with rfl | hq2
      · exact h.1
      · exact ih h.2 q hq2

/-- C8, amended: minus terms (tokens prefixed with '-') are must-not-match
on basename terms only: no document matching the parsed query contains
the B-prefixed term of any extracted minus term.  (The code builds the
minus query from BASENAME_PREFIX + term only — searcher.py lines 123-126
— so occurrences of a minus term among a document's D-prefixed dirname
terms or Z-prefixed stemmed terms do not exclude it; see the
counterexample.) -/
theorem search_minus_excludes_basename (stemmers : List (String → String))
    (query : String) (siteIds : List String) (filetype : Nat)
    (d : List String)
    (hmatch : (Arachne.IndexSearcher.parseQuery stemmers query siteIds
      filetype).matches d = true) :
    ∀ t ∈ (Arachne.IndexSearcher.parseQueryTerms query).2.1,
      d.contains ("B" ++ t) = false := by
  intro t ht
  have hne : (Arachne.IndexSearcher.parseQueryTerms query).2.1 ≠ [] := by
    intro he
    rw [he] at ht
    simp at ht
  simp only [Arachne.IndexSearcher.parseQuery] at hmatch
  rw [if_pos hne] at hmatch
  obtain ⟨base, hshape⟩ := combineBuckets_minus_shape
    (if (Arachne.IndexSearcher.parseQueryTerms query).1 ≠ [] then
      some (Arachne.XQuery.opAndOfList
        (((Arachne.IndexSearcher.parseQueryTerms query).1).map
          (fun t => Arachne.XQuery.term ("B" ++ t))))
    else none)
    _ _ (Arachne.XQuery.opOrOfList
      (((Arachne.IndexSearcher.parseQueryTerms query).2.1).map
        (fun t => Arachne.XQuery.term ("B" ++ t))))
  rw [hshape] at hmatch
  have hbase := matches_applySiteFiletypeFilters _ _ _ _ hmatch
  simp only [Arachne.XQuery.matches, Bool.and_eq_true,
    Bool.not_eq_eq_eq_not, Bool.not_true] at hbase
  have hterm := matches_opOrOfList_false d _ hbase.2
    (Arachne.XQuery.term ("B" ++ t))
    (List.mem_map.mpr ⟨t, ht, rfl⟩)
  simpa [Arachne.XQuery.matches] using hterm

/-- C8, counterexample: the claim states that no returned document
matches any extracted minus term anywhere — basename, dirname or stemmed
terms.  It is false: for the query "foo -bar", the document with terms
{Bfoo, Dbar} matches the parsed query (and is therefore returned) even
though bar is an extracted minus term and the document carries it as the
dirname term Dbar — the minus query is built from BASENAME_PREFIX only. -/
theorem search_minus_does_not_exclude_dirname :
    (Arachne.IndexSearcher.parseQuery c8Stemmers "foo -bar" []
        Arachne.IndexSearcher.SEARCH_ALL).matches c8Doc = true ∧
    "bar" ∈ (Arachne.IndexSearcher.parseQueryTerms "foo -bar").2.1 ∧
    c8Doc.contains ("D" ++ "bar") = true := by
  refine ⟨by decide, by decide, by decide⟩

/-- Witness for the amended C8 theorem at the concrete query and
document. -/
theorem search_minus_excludes_basename_witness :
    ((Arachne.IndexSearcher.parseQuery c8Stemmers "foo -bar" []
        Arachne.IndexSearcher.SEARCH_ALL).matches c8Doc = true) ∧
    (∀ t ∈ (Arachne.IndexSearcher.parseQueryTerms "foo -bar").2.1,
      c8Doc.contains ("B" ++ t) = false) :=
  ⟨by decide,
    search_minus_excludes_basename c8Stemmers "foo -bar" []
      Arachne.IndexSearcher.SEARCH_ALL c8Doc (by decide)⟩

/-! ### C3: TaskQueue.get never blocks and serves exactly the due tasks -/

theorem alookup_mem {α : Type} {l : List (String × α)} {k : String} {v : α}
    (h : Arachne.alookup l k = some v) : (k, v) ∈ l := by
  induction l with
  | nil => simp [Arachne.alookup] at h
  | cons p rest ih =>
    by_cases hp : p.1 = k
    · subst hp
      rw [show p = (p.1, p.2) from rfl, alookup_cons_eq] at h
      obtain rfl : p.2 = v := by injection h
      exact List.mem_cons_self _ _
    · rw [alookup_cons_ne _ _ _ hp] at h
      exact List.mem_cons_of_mem _ (ih h)

theorem getAux_none_iff (now : Int)
    (dbs : List (String × List (Int × Arachne.CrawlTask)))
    (hdbs : ∀ p ∈ dbs, p.2.Pairwise (fun a b => a.1 ≤ b.1)) :
    ∀ l : List (Int × String), l.Pairwise (fun a b => a.1 ≤ b.1) →
      ((Arachne.TaskQueue.getAux now dbs l).1 = none ↔
        ∀ e ∈ l, e.1 ≤ now →
          ∀ db, Arachne.alookup dbs e.2 = some db →
            ∀ p ∈ db, ¬ p.1 ≤ now) := by
  intro l
  induction l with
  | nil =>
    intro _
    simp [Arachne.TaskQueue.getAux]
  | cons e rest ih =>
    intro hp
    obtain ⟨hhead, hrest⟩ := List.pairwise_cons.mp hp
    obtain ⟨k, sid⟩ := e
    by_cases hk : k > now
    · simp only [Arachne.TaskQueue.getAux, if_pos hk]
      constructor
      · intro _ e2 he2 hle2
        rcases List.mem_cons.mp he2 with rfl | hmem
        · exact absurd hle2 (by omega)
        · have := hhead e2 hmem
          exact absurd hle2 (by omega)
      · intro _; trivial
    · have hk2 : k ≤ now := by omega
      cases hfind : Arachne.alookup dbs sid with
      | none =>
        simp only [Arachne.TaskQueue.getAux, if_neg hk, hfind]
        rw [ih hrest]
        constructor
        · intro h e2 he2 hle2 db hdb p hpm
          rcases List.mem_cons.mp he2 with heq | hmem
          · rw [heq] at hdb
            simp [hfind] at hdb
          · exact h e2 hmem hle2 db hdb p hpm
        · intro h e2 he2 hle2 db hdb p hpm
          exact h e2 (List.mem_cons_of_mem _ he2) hle2 db hdb p hpm
      | some db0 =>
        cases db0 with
        | nil =>
          simp only [Arachne.TaskQueue.getAux, if_neg hk, hfind]
          rw [ih hrest]
          constructor
          · intro h e2 he2 hle2 db hdb p hpm
            rcases List.mem_cons.mp he2 with heq | hmem
            · rw [heq] at hdb
              rw [hfind] at hdb
              obtain rfl : ([] : List (Int × Arachne.CrawlTask)) = db := by
                injection hdb
              simp at hpm
            · exact h e2 hmem hle2 db hdb p hpm
          · intro h e2 he2 hle2 db hdb p hpm
            exact h e2 (List.mem_cons_of_mem _ he2) hle2 db hdb p hpm
        | cons hd dbrest =>
          obtain ⟨tk, t⟩ := hd
          by_cases htk : tk > now
          · simp only [Arachne.TaskQueue.getAux, if_neg hk, hfind,
              if_pos htk]
            rw [ih hrest]
            have hsorted : ((tk, t) :: dbrest).Pairwise
                (fun a b => a.1 ≤ b.1) :=
              hdbs (sid, (tk, t) :: dbrest) (alookup_mem hfind)
            obtain ⟨hdstep, _⟩ := List.pairwise_cons.mp hsorted
            constructor
            · intro h e2 he2 hle2 db hdb p hpm
              rcases List.mem_cons.mp he2 with heq | hmem
              · rw [heq] at hdb
                rw [hfind] at hdb
                obtain rfl : (tk, t) :: dbrest = db := by injection hdb
                rcases List.mem_cons.mp hpm with rfl | hpm2
                · omega
                · have := hdstep p hpm2
                  omega
              · exact h e2 hmem hle2 db hdb p hpm
            · intro h e2 he2 hle2 db hdb p hpm
              exact h e2 (List.mem_cons_of_mem _ he2) hle2 db hdb p hpm
          · simp only [Arachne.TaskQueue.getAux, if_neg hk, hfind,
              if_neg htk]
            constructor
            · intro hcontra
              simp at hcontra
            · intro h
              exfalso
              exact h (k, sid) (List.mem_cons_self _ _) hk2
                ((tk, t) :: dbrest) hfind (tk, t)
                (List.mem_cons_self _ _) (by omega)

theorem getAux_some_spec (now : Int)
    (dbs : List (String × List (Int × Arachne.CrawlTask)))
    (hdbs : ∀ p ∈ dbs, p.2.Pairwise (fun a b => a.1 ≤ b.1)) :
    ∀ l : List (Int × String), ∀ task : Arachne.CrawlTask,
      (Arachne.TaskQueue.getAux now dbs l).1 = some task →
      ∃ l1 k sid l2 db tk dbrest,
        l = l1 ++ (k, sid) :: l2 ∧ k ≤ now ∧
        Arachne.alookup dbs sid = some db ∧
        db = (tk, task) :: dbrest ∧ tk ≤ now ∧
        (∀ p ∈ db, tk ≤ p.1) ∧
        (Arachne.TaskQueue.getAux now dbs l).2 =
          l1.filter (fun e => (Arachne.alookup dbs e.2).isSome) ++ l2 := by
  intro l
  induction l with
  | nil =>
    intro task h
    simp [Arachne.TaskQueue.getAux] at h
  | cons e rest ih =>
    intro task h
    obtain ⟨k, sid⟩ := e
    by_cases hk : k > now
    · simp only [Arachne.TaskQueue.getAux, if_pos hk] at h
      exact absurd h (by simp)
    · have hk2 : k ≤ now := by omega
      cases hfind : Arachne.alookup dbs sid with
      | none =>
        simp only [Arachne.TaskQueue.getAux, if_neg hk, hfind] at h ⊢
        obtain ⟨l1, k2, sid2, l2, db, tk, dbrest, hdec, hle, hlook, hdb,
          htk, hmin, hres⟩ := ih task h
        refine ⟨(k, sid) :: l1, k2, sid2, l2, db, tk, dbrest, ?_, hle,
          hlook, hdb, htk, hmin, ?_⟩
        · rw [hdec]; rfl
        · rw [List.filter_cons]
          simp only [hfind, Option.isSome_none, Bool.false_eq_true,
            if_false]
          exact hres
      | some db0 =>
        cases db0 with
        | nil =>
          simp only [Arachne.TaskQueue.getAux, if_neg hk, hfind] at h ⊢
          obtain ⟨l1, k2, sid2, l2, db, tk, dbrest, hdec, hle, hlook, hdb,
            htk, hmin, hres⟩ := ih task h
          refine ⟨(k, sid) :: l1, k2, sid2, l2, db, tk, dbrest, ?_, hle,
            hlook, hdb, htk, hmin, ?_⟩
          · rw [hdec]; rfl
          · rw [List.filter_cons]
            simp only [hfind, Option.isSome_some, if_true]
            rw [hres]
            rfl
        | cons hd dbrest0 =>
          obtain ⟨tk0, t0⟩ := hd
          by_cases htk0 : tk0 > now
          · simp only [Arachne.TaskQueue.getAux, if_neg hk, hfind,
              if_pos htk0] at h ⊢
            obtain ⟨l1, k2, sid2, l2, db, tk, dbrest, hdec, hle, hlook,
              hdb, htk, hmin, hres⟩ := ih task h
            refine ⟨(k, sid) :: l1, k2, sid2, l2, db, tk, dbrest, ?_, hle,
              hlook, hdb, htk, hmin, ?_⟩
            · rw [hdec]; rfl
            · rw [List.filter_cons]
              simp only [hfind, Option.isSome_some, if_true]
              rw [hres]
              rfl
          · simp only [Arachne.TaskQueue.getAux, if_neg hk, hfind,
              if_neg htk0] at h ⊢
            obtain rfl : t0 = task := by injection h
            have hsorted : ((tk0, t0) :: dbrest0).Pairwise
                (fun a b => a.1 ≤ b.1) :=
              hdbs (sid, (tk0, t0) :: dbrest0) (alookup_mem hfind)
            obtain ⟨hdstep, _⟩ := List.pairwise_cons.mp hsorted
            refine ⟨[], k, sid, rest, (tk0, t0) :: dbrest0, tk0, dbrest0,
              rfl, hk2, hfind, rfl, by omega, ?_, rfl⟩
            intro p hpm
            rcases List.mem_cons.mp hpm with rfl | hpm2
            · omega
            · exact hdstep p hpm2

/-- C3: TaskQueue.get never blocks — it is a total function returning
either a task or the EmptyQueue signal (modelled as none).  On a queue
whose databases are key-sorted it returns the task at the head (the
smallest key, first inserted among equal keys) of the task database of a
site whose sites-queue entry key is ≤ now, removing exactly that site
entry from the sites queue (stale site ids scanned on the way are
deleted lazily, due entries of sites without a due head task are kept);
it signals EmptyQueue exactly when no site entry due now (key ≤ now)
belongs to a configured site holding a task with key ≤ now. -/
theorem taskQueue_get_spec (now : Int) (q : Arachne.TaskQueue)
    (hsq : q.sitesQ.Pairwise (fun a b => a.1 ≤ b.1))
    (hdbs : ∀ p ∈ q.taskDbs, p.2.Pairwise (fun a b => a.1 ≤ b.1)) :
    ((q.get now).1 = none ↔
      ¬ ∃ e ∈ q.sitesQ, e.1 ≤ now ∧
        ∃ db, Arachne.alookup q.taskDbs e.2 = some db ∧
          ∃ p ∈ db, p.1 ≤ now) ∧
    (∀ task, (q.get now).1 = some task →
      (q.get now).2.taskDbs = q.taskDbs ∧
      (q.get now).2.sitesInfo = q.sitesInfo ∧
      ∃ l1 k sid l2 db tk dbrest,
        q.sitesQ = l1 ++ (k, sid) :: l2 ∧ k ≤ now ∧
        Arachne.alookup q.taskDbs sid = some db ∧
        db = (tk, task) :: dbrest ∧ tk ≤ now ∧
        (∀ p ∈ db, tk ≤ p.1) ∧
        (q.get now).2.sitesQ =
          l1.filter (fun e => (Arachne.alookup q.taskDbs e.2).isSome)
            ++ l2) := by
  by_cases hempty : q.sitesQ.isEmpty
  · have hnil : q.sitesQ = [] := List.isEmpty_iff.mp hempty
    constructor
    · simp [Arachne.TaskQueue.get, hempty, hnil]
    · intro task htask
      simp [Arachne.TaskQueue.get, hempty] at htask
  · constructor
    · simp only [Arachne.TaskQueue.get, hempty, Bool.false_eq_true,
        if_false]
      rw [getAux_none_iff now q.taskDbs hdbs q.sitesQ hsq]
      push_neg
      constructor
      · intro h e he hle db hdb p hp
        have := h e he hle db hdb p hp
        omega
      · intro h e he hle db hdb p hp
        have := h e he hle db hdb p hp
        omega
    · intro task htask
      simp only [Arachne.TaskQueue.get, hempty, Bool.false_eq_true,
        if_false] at htask ⊢
      refine ⟨trivial, trivial, ?_⟩
      obtain ⟨l1, k, sid, l2, db, tk, dbrest, hdec, hle, hlook, hdb, htk,
        hmin, hres⟩ := getAux_some_spec now q.taskDbs hdbs q.sitesQ task
        htask
      exact ⟨l1, k, sid, l2, db, tk, dbrest, hdec, hle, hlook, hdb, htk,
        hmin, hres⟩

/-- Witness for the C3 theorem at the concrete one-site queue. -/
theorem taskQueue_get_spec_witness :
    (c3Queue.sitesQ.Pairwise (fun a b => a.1 ≤ b.1) ∧
      ∀ p ∈ c3Queue.taskDbs, p.2.Pairwise (fun a b => a.1 ≤ b.1)) ∧
    (((c3Queue.get 1000).1 = none ↔
      ¬ ∃ e ∈ c3Queue.sitesQ, e.1 ≤ 1000 ∧
        ∃ db, Arachne.alookup c3Queue.taskDbs e.2 = some db ∧
          ∃ p ∈ db, p.1 ≤ 1000) ∧
    (∀ task, (c3Queue.get 1000).1 = some task →
      (c3Queue.get 1000).2.taskDbs = c3Queue.taskDbs ∧
      (c3Queue.get 1000).2.sitesInfo = c3Queue.sitesInfo ∧
      ∃ l1 k sid l2 db tk dbrest,
        c3Queue.sitesQ = l1 ++ (k, sid) :: l2 ∧ k ≤ 1000 ∧
        Arachne.alookup c3Queue.taskDbs sid = some db ∧
        db = (tk, task) :: dbrest ∧ tk ≤ 1000 ∧
        (∀ p ∈ db, tk ≤ p.1) ∧
        (c3Queue.get 1000).2.sitesQ =
          l1.filter (fun e => (Arachne.alookup c3Queue.taskDbs e.2).isSome)
            ++ l2)) :=
  ⟨⟨by decide, by decide⟩,
    taskQueue_get_spec 1000 c3Queue (by decide) (by decide)⟩

/-! ### C4: at-most-once (site_id, url) pairs in the TaskQueue -/

theorem btreePut_perm {α : Type} (l : List (Int × α)) (k : Int) (v : α) :
    (Arachne.btreePut l k v).Perm ((k, v) :: l) := by
  induction l with
  | nil => exact List.Perm.refl _
  | cons p rest ih =>
    obtain ⟨k2, v2⟩ := p
    by_cases hk : k < k2
    · simp only [Arachne.btreePut, if_pos hk]
      exact List.Perm.refl _
    · simp only [Arachne.btreePut, if_neg hk]
      exact (ih.cons (k2, v2)).trans (List.Perm.swap _ _ _)

theorem alookup_decomp {α : Type} {l : List (String × α)} {k : String}
    {v : α} (h : Arachne.alookup l k = some v) :
    ∃ pre post, l = pre ++ (k, v) :: post ∧ ∀ p ∈ pre, p.1 ≠ k := by
  induction l with
  | nil => simp [Arachne.alookup] at h
  | cons p rest ih =>
    by_cases hp : p.1 = k
    · subst hp
      rw [show p = (p.1, p.2) from rfl, alookup_cons_eq] at h
      obtain rfl : p.2 = v := by injection h
      exact ⟨[], rest, rfl, by simp⟩
    · rw [alookup_cons_ne _ _ _ hp] at h
      obtain ⟨pre, post, hdec, hpre⟩ := ih h
      refine ⟨p :: pre, post, by rw [hdec]; rfl, ?_⟩
      intro p2 hp2
      rcases List.mem_cons.mp hp2 with rfl | hmem
      · exact hp
      · exact hpre p2 hmem

theorem aset_decomp {α : Type} (pre post : List (String × α)) (k : String)
    (v w : α) (hpre : ∀ p ∈ pre, p.1 ≠ k) (hpost : ∀ p ∈ post, p.1 ≠ k) :
    Arachne.aset (pre ++ (k, v) :: post) k w = pre ++ (k, w) :: post := by
  induction pre with
  | nil =>
    simp [aset_cons, aset_of_not_mem _ _ _ hpost]
  | cons p prest ih =>
    simp only [List.cons_append, aset_cons,
      if_neg (hpre p (List.mem_cons_self _ _))]
    rw [ih (fun q hq => hpre q (List.mem_cons_of_mem _ hq))]

theorem storedTasks_decomp (sq : List (Int × String))
    (si : List (String × Arachne.SiteInfo))
    (pre post : List (String × List (Int × Arachne.CrawlTask)))
    (sid : String) (db : List (Int × Arachne.CrawlTask)) :
    Arachne.TaskQueue.storedTasks
      { sitesQ := sq, taskDbs := pre ++ (sid, db) :: post, sitesInfo := si } =
      Arachne.TaskQueue.storedTasks
        { sitesQ := sq, taskDbs := pre, sitesInfo := si } ++
      db.map (fun e => e.2) ++
      Arachne.TaskQueue.storedTasks
        { sitesQ := sq, taskDbs := post, sitesInfo := si } := by
  simp [Arachne.TaskQueue.storedTasks]

/-- The pair-distinctness relation of UniquePairs. -/
theorem pairR_symm :
    ∀ {a b : Arachne.CrawlTask},
      ¬ (a.site_id = b.site_id ∧ a.url = b.url) →
        ¬ (b.site_id = a.site_id ∧ b.url = a.url) := by
  intro a b h hc
  exact h ⟨hc.1.symm, hc.2.symm⟩

theorem taskDbs_decomp (q : Arachne.TaskQueue) (sid : String)
    (db : List (Int × Arachne.CrawlTask))
    (hlook : Arachne.alookup q.taskDbs sid = some db)
    (hnd : (q.taskDbs.map (fun p => p.1)).Nodup) :
    ∃ pre post,
      q.taskDbs = pre ++ (sid, db) :: post ∧
      (∀ p ∈ pre, p.1 ≠ sid) ∧ (∀ p ∈ post, p.1 ≠ sid) ∧
      ∀ newdb, Arachne.aset q.taskDbs sid newdb =
        pre ++ (sid, newdb) :: post := by
  obtain ⟨pre, post, hdec, hpre⟩ := alookup_decomp hlook
  have hpost : ∀ p ∈ post, p.1 ≠ sid := by
    rw [hdec] at hnd
    simp only [List.map_append, List.map_cons] at hnd
    have := (List.nodup_append.mp hnd).2.1
    obtain ⟨hsid, _⟩ := List.nodup_cons.mp this
    intro p hp he
    exact hsid (he ▸ List.mem_map_of_mem (fun p => p.1) hp)
  refine ⟨pre, post, hdec, hpre, hpost, ?_⟩
  intro newdb
  rw [hdec]
  exact aset_decomp pre post sid db newdb hpre hpost

theorem hasPair_false_forall (q : Arachne.TaskQueue) (sid : String)
    (url : Arachne.URL) (h : q.hasPair sid url = false) :
    ∀ t ∈ q.storedTasks, ¬ (t.site_id = sid ∧ t.url = url) := by
  intro t ht hc
  rw [Arachne.TaskQueue.hasPair, List.any_eq_false] at h
  exact h t ht (by simp [hc.1, hc.2])

theorem inv_insert_task (q : Arachne.TaskQueue) (sid : String)
    (db mid : List (Int × Arachne.CrawlTask)) (key : Int)
    (task : Arachne.CrawlTask)
    (hlook : Arachne.alookup q.taskDbs sid = some db)
    (hwk : Arachne.TaskQueue.WellKeyed q)
    (hup : Arachne.TaskQueue.UniquePairs q)
    (hsub : mid.Sublist db)
    (htasksite : task.site_id = sid)
    (habsmid : ∀ e ∈ mid,
      ¬ (e.2.site_id = task.site_id ∧ e.2.url = task.url)) :
    Arachne.TaskQueue.WellKeyed
      { q with
        taskDbs := Arachne.aset q.taskDbs sid
          (Arachne.btreePut mid key task) } ∧
    Arachne.TaskQueue.UniquePairs
      { q with
        taskDbs := Arachne.aset q.taskDbs sid
          (Arachne.btreePut mid key task) } := by
  obtain ⟨pre, post, hdec, hpre, hpost, haset⟩ :=
    taskDbs_decomp q sid db hlook hwk.1
  rw [haset]
  have hmemdbs : ∀ p ∈ pre, p ∈ q.taskDbs := by
    intro p hp
    rw [hdec]
    exact List.mem_append_left _ hp
  have hmemdbs2 : ∀ p ∈ post, p ∈ q.taskDbs := by
    intro p hp
    rw [hdec]
    exact List.mem_append_right _ (List.mem_cons_of_mem _ hp)
  have hdbmem : (sid, db) ∈ q.taskDbs := by
    rw [hdec]
    exact List.mem_append_right _ (List.mem_cons_self _ _)
  constructor
  · constructor
    · have heq : ((pre ++ (sid, Arachne.btreePut mid key task) :: post).map
          (fun p => p.1)) = ((pre ++ (sid, db) :: post).map
          (fun p => p.1)) := by
        simp
      rw [heq, ← hdec]
      exact hwk.1
    · intro p hp e he
      rcases List.mem_append.mp hp with hp1 | hp2
      · exact hwk.2 p (hmemdbs p hp1) e he
      · rcases List.mem_cons.mp hp2 with rfl | hp3
        · have he2 : e ∈ (key, task) :: mid :=
            (btreePut_perm mid key task).mem_iff.mp he
          rcases List.mem_cons.mp he2 with rfl | he3
          · exact htasksite
          · exact hwk.2 (sid, db) hdbmem e (hsub.subset he3)
        · exact hwk.2 p (hmemdbs2 p hp3) e he
  · have hq : Arachne.TaskQueue.storedTasks q =
        pre.flatMap (fun p => p.2.map (fun e => e.2)) ++
          (db.map (fun e => e.2) ++
            post.flatMap (fun p => p.2.map (fun e => e.2))) := by
      show q.taskDbs.flatMap (fun p => p.2.map (fun e => e.2)) = _
      rw [hdec, List.flatMap_append, List.flatMap_cons]
    have hperm : (Arachne.TaskQueue.storedTasks
        { q with
          taskDbs := pre ++
            (sid, Arachne.btreePut mid key task) :: post }).Perm
        (task :: (pre.flatMap (fun p => p.2.map (fun e => e.2)) ++
          (mid.map (fun e => e.2) ++
            post.flatMap (fun p => p.2.map (fun e => e.2))))) := by
      show ((pre ++ (sid, Arachne.btreePut mid key task) :: post).flatMap
        (fun p => p.2.map (fun e => e.2))).Perm _
      rw [List.flatMap_append, List.flatMap_cons]
      have h1 : ((Arachne.btreePut mid key task).map
          (fun e => e.2)).Perm (task :: mid.map (fun e => e.2)) :=
        List.Perm.map _ (btreePut_perm mid key task)
      have h2 := List.Perm.append_left
        (pre.flatMap (fun p => p.2.map (fun e => e.2)))
        (List.Perm.append_right
          (post.flatMap (fun p => p.2.map (fun e => e.2))) h1)
      refine h2.trans ?_
      have h3 : pre.flatMap (fun p => p.2.map (fun e => e.2)) ++
          ((task :: mid.map (fun e => e.2)) ++
            post.flatMap (fun p => p.2.map (fun e => e.2))) =
          pre.flatMap (fun p => p.2.map (fun e => e.2)) ++
            task :: (mid.map (fun e => e.2) ++
              post.flatMap (fun p => p.2.map (fun e => e.2))) := by
        simp
      rw [h3]
      exact List.perm_middle
    rw [Arachne.TaskQueue.UniquePairs,
      hperm.pairwise_iff (fun h => pairR_symm h)]
    have hsubl : (pre.flatMap (fun p => p.2.map (fun e => e.2)) ++
        (mid.map (fun e => e.2) ++
          post.flatMap (fun p => p.2.map (fun e => e.2)))).Sublist
        (Arachne.TaskQueue.storedTasks q) := by
      rw [hq]
      exact (List.Sublist.refl _).append
        ((hsub.map _).append (List.Sublist.refl _))
    rw [List.pairwise_cons]
    constructor
    · intro b hb
      have hcross : ∀ p : String × List (Int × Arachne.CrawlTask),
          p ∈ pre ∨ p ∈ post →
          b ∈ p.2.map (fun e => e.2) →
          ¬ (task.site_id = b.site_id ∧ task.url = b.url) := by
        intro p hp hbp hc
        have hpm : p ∈ q.taskDbs := by
          rcases hp with h1 | h2
          · exact hmemdbs p h1
          · exact hmemdbs2 p h2
        obtain ⟨e, he, rfl⟩ := List.mem_map.mp hbp
        have hbsite : e.2.site_id = p.1 := hwk.2 p hpm e he
        have hne : p.1 ≠ sid := by
          rcases hp with h1 | h2
          · exact hpre p h1
          · exact hpost p h2
        rw [htasksite] at hc
        exact hne (hbsite ▸ hc.1.symm)
      rcases List.mem_append.mp hb with hb1 | hb23
      · obtain ⟨p, hp, hbp⟩ := List.mem_flatMap.mp hb1
        exact hcross p (Or.inl hp) hbp
      · rcases List.mem_append.mp hb23 with hb2 | hb3
        · obtain ⟨e, he, rfl⟩ := List.mem_map.mp hb2
          intro hc
          exact habsmid e he ⟨hc.1.symm, hc.2.symm⟩
        · obtain ⟨p, hp, hbp⟩ := List.mem_flatMap.mp hb3
          exact hcross p (Or.inr hp) hbp
    · exact hup.sublist hsubl

theorem inv_remove_head (q : Arachne.TaskQueue) (sid : String)
    (hd : Int × Arachne.CrawlTask)
    (dbrest : List (Int × Arachne.CrawlTask))
    (hlook : Arachne.alookup q.taskDbs sid = some (hd :: dbrest))
    (hwk : Arachne.TaskQueue.WellKeyed q)
    (hup : Arachne.TaskQueue.UniquePairs q) :
    Arachne.TaskQueue.WellKeyed
      { q with taskDbs := Arachne.aset q.taskDbs sid dbrest } ∧
    Arachne.TaskQueue.UniquePairs
      { q with taskDbs := Arachne.aset q.taskDbs sid dbrest } := by
  obtain ⟨pre, post, hdec, hpre, hpost, haset⟩ :=
    taskDbs_decomp q sid (hd :: dbrest) hlook hwk.1
  rw [haset]
  have hmemdbs : ∀ p ∈ pre, p ∈ q.taskDbs := by
    intro p hp
    rw [hdec]
    exact List.mem_append_left _ hp
  have hmemdbs2 : ∀ p ∈ post, p ∈ q.taskDbs := by
    intro p hp
    rw [hdec]
    exact List.mem_append_right _ (List.mem_cons_of_mem _ hp)
  have hdbmem : (sid, hd :: dbrest) ∈ q.taskDbs := by
    rw [hdec]
    exact List.mem_append_right _ (List.mem_cons_self _ _)
  constructor
  · constructor
    · have heq : ((pre ++ (sid, dbrest) :: post).map (fun p => p.1)) =
          ((pre ++ (sid, hd :: dbrest) :: post).map (fun p => p.1)) := by
        simp
      rw [heq, ← hdec]
      exact hwk.1
    · intro p hp e he
      rcases List.mem_append.mp hp with hp1 | hp2
      · exact hwk.2 p (hmemdbs p hp1) e he
      · rcases List.mem_cons.mp hp2 with rfl | hp3
        · exact hwk.2 (sid, hd :: dbrest) hdbmem e
            (List.mem_cons_of_mem _ he)
        · exact hwk.2 p (hmemdbs2 p hp3) e he
  · have hq : Arachne.TaskQueue.storedTasks q =
        pre.flatMap (fun p => p.2.map (fun e => e.2)) ++
          ((hd :: dbrest).map (fun e => e.2) ++
            post.flatMap (fun p => p.2.map (fun e => e.2))) := by
      show q.taskDbs.flatMap (fun p => p.2.map (fun e => e.2)) = _
      rw [hdec, List.flatMap_append, List.flatMap_cons]
    have hq2 : Arachne.TaskQueue.storedTasks
        { q with taskDbs := pre ++ (sid, dbrest) :: post } =
        pre.flatMap (fun p => p.2.map (fun e => e.2)) ++
          (dbrest.map (fun e => e.2) ++
            post.flatMap (fun p => p.2.map (fun e => e.2))) := by
      show (pre ++ (sid, dbrest) :: post).flatMap
        (fun p => p.2.map (fun e => e.2)) = _
      rw [List.flatMap_append, List.flatMap_cons]
    rw [Arachne.TaskQueue.UniquePairs, hq2]
    have hup2 := hup
    rw [Arachne.TaskQueue.UniquePairs, hq] at hup2
    exact List.Pairwise.sublist
      ((List.Sublist.refl _).append
        (((List.sublist_cons_self hd dbrest).map _).append
          (List.Sublist.refl _))) hup2

theorem inv_of_taskDbs_eq (q q2 : Arachne.TaskQueue)
    (h : q2.taskDbs = q.taskDbs)
    (hwk : Arachne.TaskQueue.WellKeyed q)
    (hup : Arachne.TaskQueue.UniquePairs q) :
    Arachne.TaskQueue.WellKeyed q2 ∧ Arachne.TaskQueue.UniquePairs q2 := by
  constructor
  · constructor
    · rw [h]; exact hwk.1
    · rw [h]; exact hwk.2
  · have hst : Arachne.TaskQueue.storedTasks q2 =
        Arachne.TaskQueue.storedTasks q := by
      show q2.taskDbs.flatMap _ = q.taskDbs.flatMap _
      rw [h]
    rw [Arachne.TaskQueue.UniquePairs, hst]
    exact hup

theorem mem_storedTasks_of_mem_db (q : Arachne.TaskQueue) (sid : String)
    (db : List (Int × Arachne.CrawlTask))
    (hlook : Arachne.alookup q.taskDbs sid = some db)
    (e : Int × Arachne.CrawlTask) (he : e ∈ db) :
    e.2 ∈ Arachne.TaskQueue.storedTasks q := by
  exact List.mem_flatMap.mpr
    ⟨(sid, db), alookup_mem hlook, List.mem_map_of_mem _ he⟩

theorem putTask_inv (now s : Int) (q q2 : Arachne.TaskQueue)
    (task : Arachne.CrawlTask)
    (hwk : Arachne.TaskQueue.WellKeyed q)
    (hup : Arachne.TaskQueue.UniquePairs q)
    (habs : q.hasPair task.site_id task.url = false)
    (hop : q.putTask now task s = some q2) :
    Arachne.TaskQueue.WellKeyed q2 ∧ Arachne.TaskQueue.UniquePairs q2 := by
  unfold Arachne.TaskQueue.putTask at hop
  cases hlook : Arachne.alookup q.taskDbs task.site_id with
  | none => rw [hlook] at hop; exact absurd hop (by simp)
  | some db =>
    rw [hlook] at hop
    have hq2 : q2 = { q with
        taskDbs := Arachne.aset q.taskDbs task.site_id
          (Arachne.btreePut db (now + s) task) } := by
      injection hop with h
      exact h.symm
    subst hq2
    apply inv_insert_task q task.site_id db db (now + s) task hlook hwk hup
      (List.Sublist.refl db) rfl
    intro e he hc
    exact hasPair_false_forall q task.site_id task.url habs e.2
      (mem_storedTasks_of_mem_db q task.site_id db hlook e he) hc

theorem putVisited_to_putTask (now : Int) (q q2 : Arachne.TaskQueue)
    (task : Arachne.CrawlTask) (changed : Bool)
    (hop : q.putVisited now task changed = some q2) :
    ∃ task2 s, task2.site_id = task.site_id ∧ task2.url = task.url ∧
      q.putTask now task2 s = some q2 := by
  unfold Arachne.TaskQueue.putVisited at hop
  cases hsi : Arachne.alookup q.sitesInfo task.site_id with
  | none => rw [hsi] at hop; exact absurd hop (by simp)
  | some si =>
    rw [hsi] at hop
    refine ⟨_, _, ?_, ?_, hop⟩
    · simp only [Arachne.CrawlTask.reportVisit,
        Arachne.CrawlTask.resetCounters]
      split
      · rfl
      · split <;> rfl
    · simp only [Arachne.CrawlTask.reportVisit,
        Arachne.CrawlTask.resetCounters]
      split
      · rfl
      · split <;> rfl

theorem storedTasks_initFresh (now : Int)
    (si : List (String × Arachne.SiteInfo)) :
    (Arachne.TaskQueue.initFresh now si).storedTasks =
      si.map (fun p => Arachne.CrawlTask.new p.1 p.2.url) := by
  show (si.map _).flatMap _ = _
  induction si with
  | nil => rfl
  | cons p rest ih =>
    simp only [List.map_cons, List.flatMap_cons, List.map_cons] at *
    rw [ih]
    rfl

theorem taskQueue_reachable_inv (q : Arachne.TaskQueue)
    (h : Arachne.TaskQueue.Reachable q) :
    Arachne.TaskQueue.WellKeyed q ∧ Arachne.TaskQueue.UniquePairs q := by
  induction h with
  | init now si hnodup =>
    constructor
    · constructor
      · simpa [Arachne.TaskQueue.initFresh, List.map_map,
          Function.comp] using hnodup
      · intro p hp e he
        simp only [Arachne.TaskQueue.initFresh, List.mem_map] at hp
        obtain ⟨x, _, rfl⟩ := hp
        rcases List.mem_singleton.mp he with rfl
        rfl
    · rw [Arachne.TaskQueue.UniquePairs, storedTasks_initFresh]
      rw [List.pairwise_map]
      have hpw : si.Pairwise (fun a b => a.1 ≠ b.1) :=
        List.pairwise_map.mp hnodup
      exact hpw.imp (fun hne hc => hne hc.1)
  | step q q2 now hr hs ih =>
    obtain ⟨hwk, hup⟩ := ih
    cases hs with
    | putNew _ task habs hop =>
      exact putTask_inv now 0 q q2 task hwk hup habs hop
    | putVisited _ task changed habs hop =>
      obtain ⟨task2, s, hsid, hurl, hop2⟩ :=
        putVisited_to_putTask now q q2 task changed hop
      apply putTask_inv now s q q2 task2 hwk hup _ hop2
      rw [hsid, hurl]
      exact habs
    | get =>
      apply inv_of_taskDbs_eq q _ _ hwk hup
      unfold Arachne.TaskQueue.get
      split <;> rfl
    | reportDone _ task hop =>
      unfold Arachne.TaskQueue.reportDone at hop
      cases hsi : Arachne.alookup q.sitesInfo task.site_id with
      | none => rw [hsi] at hop; simp at hop
      | some si =>
        rw [hsi] at hop
        cases hdb : Arachne.alookup q.taskDbs task.site_id with
        | none => rw [hdb] at hop; simp at hop
        | some db =>
          rw [hdb] at hop
          cases db with
          | nil => simp at hop
          | cons hd dbrest =>
            obtain ⟨hw2, hu2⟩ :=
              inv_remove_head q task.site_id hd dbrest hdb hwk hup
            apply inv_of_taskDbs_eq _ _ _ hw2 hu2
            have hq2 : q2 = { q with
                sitesQ := Arachne.btreePut q.sitesQ
                  (now + si.request_wait) task.site_id,
                taskDbs := Arachne.aset q.taskDbs task.site_id dbrest } := by
              injection hop with h
              exact h.symm
            rw [hq2]
    | reportErrorSite _ task hop =>
      unfold Arachne.TaskQueue.reportErrorSite at hop
      cases hsi : Arachne.alookup q.sitesInfo task.site_id with
      | none => rw [hsi] at hop; simp at hop
      | some si =>
        rw [hsi] at hop
        apply inv_of_taskDbs_eq q _ _ hwk hup
        have hq2 : q2 = { q with
            sitesQ := Arachne.btreePut q.sitesQ
              (now + si.error_site_wait) task.site_id } := by
          injection hop with h
          exact h.symm
        rw [hq2]
    | reportErrorDir _ task db hdb habs hop =>
      unfold Arachne.TaskQueue.reportErrorDir at hop
      cases hsi : Arachne.alookup q.sitesInfo task.site_id with
      | none => rw [hsi] at hop; simp at hop
      | some si =>
        rw [hsi, hdb] at hop
        cases db with
        | nil => simp at hop
        | cons hd dbrest =>
          have habs2 : ∀ e ∈ dbrest,
              ¬ (e.2.site_id = task.site_id ∧ e.2.url = task.url) := by
            intro e he hc
            rw [List.all_eq_true] at habs
            have := habs e.2 (by
              simp only [List.drop_one, List.tail_cons]
              exact List.mem_map_of_mem _ he)
            simp only [decide_eq_true_eq] at this
            exact this hc
          obtain ⟨hw2, hu2⟩ := inv_insert_task q task.site_id
            (hd :: dbrest) dbrest (now + si.error_dir_wait) task hdb hwk
            hup (List.sublist_cons_self hd dbrest) rfl habs2
          apply inv_of_taskDbs_eq _ _ _ hw2 hu2
          have hq2 : q2 = { q with
              sitesQ := Arachne.btreePut q.sitesQ
                (now + si.request_wait) task.site_id,
              taskDbs := Arachne.aset q.taskDbs task.site_id
                (Arachne.btreePut dbrest (now + si.error_dir_wait) task) } := by
            injection hop with h
            exact h.symm
          rw [hq2]

/-- C4, counterexample: the claim states uniqueness for every state
reachable from startup reconciliation by any sequence of the public
operations.  It is false: put_new performs no deduplication, so from the
fresh startup state of site "s" (which already holds the root task) a
single put_new of a new CrawlTask for the same root URL yields a state
holding the (site_id, url) pair twice. -/
theorem taskQueue_put_new_duplicates :
    ((Arachne.TaskQueue.initFresh 1000 [("s", cSi)]).putNew 1001
        (Arachne.CrawlTask.new "s" { path := "/", isRoot := true })).map
      (fun q => q.pairCount "s" { path := "/", isRoot := true }) =
      some 2 := by
  decide

/-- C4, amended: in every state reachable from a fresh startup
reconciliation by sequences of put_new, put_visited, get, report_done,
report_error_site and report_error_dir in which each inserting call
(put_new, put_visited, and report_error_dir's reinsertion after its head
deletion) is only made for a (site_id, url) pair not currently stored —
the protocol the crawler observes, since tasks are re-inserted only after
report_done removed them — each (site_id, url) pair occurs at most once
among the stored tasks.  The queue itself never deduplicates, so the
side conditions cannot be dropped (see the counterexample). -/
theorem taskQueue_unique_pairs (q : Arachne.TaskQueue)
    (h : Arachne.TaskQueue.Reachable q) :
    Arachne.TaskQueue.UniquePairs q :=
  (taskQueue_reachable_inv q h).2

/-- Witness for the amended C4 theorem at the fresh one-site queue. -/
theorem taskQueue_unique_pairs_witness :
    Arachne.TaskQueue.Reachable
      (Arachne.TaskQueue.initFresh 1000 [("s", cSi)]) ∧
    Arachne.TaskQueue.UniquePairs
      (Arachne.TaskQueue.initFresh 1000 [("s", cSi)]) :=
  ⟨Arachne.TaskQueue.Reachable.init 1000 [("s", cSi)] (by decide),
    taskQueue_unique_pairs _
      (Arachne.TaskQueue.Reachable.init 1000 [("s", cSi)] (by decide))⟩
